import Mathlib

/-!
# IBM KMS key resource (`ibm/resource_ibm_kms_key.go`)

A shallow embedding of the five lifecycle entry points of the key resource
(`resourceIBMKmsKeyCreate`, `...Read`, `...Update`, `...Delete`, `...Exists`).

* Go strings are modelled by `String`; the three `strings` functions the file
  uses (`Split`, `HasPrefix`, `TrimSuffix`) are defined on the character list.
* The external collaborators (session, resource controller, HPCS endpoint
  lookup, `url.Parse`, `url.QueryEscape`, the key-protect SDK) are the fields of
  an environment record `Env`: each field is the answer the collaborator gives.
* The shared key-protect client object, the local resource record and the list
  of remote calls issued so far form the `World` every entry point transforms.
* A Go `panic` (index out of range, failed type assertion) is the outcome
  `Outcome.panic`; a returned `error` is `Outcome.err`.
-/

namespace KmsKey

/-! ## Go string primitives -/

/-- Segments of a character list cut at every occurrence of `sep`. -/
def splitChars (sep : Char) : List Char → List (List Char)
  | [] => [[]]
  | c :: cs =>
    if c = sep then [] :: splitChars sep cs
    else
      match splitChars sep cs with
      | [] => [[c]]
      | seg :: rest => (c :: seg) :: rest

/-- Go `strings.Split(s, sep)` for a separator of one character. -/
def stringsSplit (s : String) (sep : Char) : List String :=
  (splitChars sep s.data).map String.mk

/-- Go `strings.HasPrefix(s, p)`. -/
def stringsHasPrefix (s p : String) : Bool :=
  p.data.isPrefixOf s.data

/-- Go `strings.HasSuffix(s, suf)`. -/
def stringsHasSuffix (s suf : String) : Bool :=
  suf.data.reverse.isPrefixOf s.data.reverse

/-- Go `strings.TrimSuffix(s, suf)`: `s` without the trailing `suf` when `s` ends
with it, `s` itself otherwise. -/
def stringsTrimSuffix (s suf : String) : String :=
  if stringsHasSuffix s suf then String.mk (s.data.take (s.data.length - suf.data.length)) else s

/-! ## Data model -/

/-- A Go `error` value. `kp` is the SDK's `*kp.Error` (with its HTTP status code and
the text of its `Error()` method); `plain` is any other error, such as the ones
made by `fmt.Errorf`. -/
inductive GoError where
  | kp (StatusCode : Int) (text : String)
  | plain (text : String)
  deriving DecidableEq, Repr

/-- Text of `err.Error()`, as printed by the `%s` verb of `fmt.Errorf`. -/
def GoError.Error : GoError → String
  | .kp _ t => t
  | .plain t => t

/-- Result of `url.Parse`: a parsed URL, kept as the string it was parsed from. -/
structure URL where
  raw : String
  deriving DecidableEq, Repr

/-- The `Config` of the key-protect client (`kp.ClientConfig`), the two fields the file writes. -/
structure ClientConfig where
  BaseURL : String
  InstanceID : String
  deriving DecidableEq, Repr

/-- The key-protect client `kpAPI` (`*kp.Client`): `URL` is `nil` until set. -/
structure Client where
  URL : Option URL
  Config : ClientConfig
  deriving DecidableEq, Repr

/-- A remote key (`kp.Key`), the fields the file reads. -/
structure Key where
  ID : String
  CRN : String
  Name : String
  Extractable : Bool
  Payload : String
  EncryptedNonce : String
  IV : String
  State : Int
  deriving DecidableEq, Repr

/-- Answer of the HPCS endpoint lookup: `resp.Kms.Public` and `resp.Kms.Private`. -/
structure EndpointResp where
  «Public» : String
  «Private» : String
  deriving DecidableEq, Repr

/-- The local resource record `d` (`*schema.ResourceData`): its identifier, the value
last handed to `d.Set` for each schema field (`resource_status` receives the integer
`key.State`), and whether the plan changes `force_delete` (`d.HasChange`). -/
structure ResourceData where
  Id : String
  instance_id : String
  key_id : String
  key_name : String
  type : String
  endpoint_type : String
  standard_key : Bool
  payload : String
  encrypted_nonce : String
  iv_value : String
  force_delete : Bool
  crn : String
  resource_name : String
  resource_crn : String
  resource_status : Int
  resource_group_name : String
  resource_controller_url : String
  force_delete_changed : Bool
  deriving DecidableEq, Repr

/-- A call issued to a remote service. Calls on the key-protect client record the
client as it is at the moment of the call. -/
inductive Call where
  | GetInstance (instanceID : String)
  | GetAPIEndpoint (instanceID : String)
  | GetKey (client : Client) (keyid : String)
  | DeleteKey (client : Client) (keyid : String) (force : Bool)
  | CreateStandardKey (client : Client) (name : String)
  | CreateImportedStandardKey (client : Client) (name payload : String)
  | CreateRootKey (client : Client) (name : String)
  | CreateImportedRootKey (client : Client) (name payload encryptedNonce iv : String)
  deriving DecidableEq, Repr

/-- Whether the call is one of the four key-creation calls. -/
def Call.isCreate : Call → Bool
  | .CreateStandardKey _ _ => true
  | .CreateImportedStandardKey _ _ _ => true
  | .CreateRootKey _ _ => true
  | .CreateImportedRootKey _ _ _ _ _ => true
  | _ => false

/-- Whether the call is a key deletion. -/
def Call.isDelete : Call → Bool
  | .DeleteKey _ _ _ => true
  | _ => false

/-- Whether the call fetches a key. -/
def Call.isFetch : Call → Bool
  | .GetKey _ _ => true
  | _ => false

/-- Whether the call is a key operation on the key-protect client. -/
def Call.isKeyOp (c : Call) : Bool :=
  c.isCreate || c.isDelete || c.isFetch

/-- The answers of the external collaborators. -/
structure Env where
  /-- `meta.(ClientSession).keyManagementAPI()`: the error, if any. -/
  keyManagementAPI : Option GoError
  /-- `meta.(ClientSession).HpcsEndpointAPI()`: the error, if any. -/
  HpcsEndpointAPI : Option GoError
  /-- `meta.(ClientSession).ResourceControllerAPIV2()`: the error, if any. -/
  ResourceControllerAPIV2 : Option GoError
  /-- `rContollerApi.GetInstance(instanceID)`, answering `instanceData.Crn.String()`. -/
  GetInstance : String → Except GoError String
  /-- `hpcsEndpointApi.Endpoint().GetAPIEndpoint(instanceID)`. -/
  GetAPIEndpoint : String → Except GoError EndpointResp
  /-- `url.Parse`. -/
  urlParse : String → Except GoError URL
  /-- `url.QueryEscape`. -/
  QueryEscape : String → String
  /-- `getBaseController(meta)`. -/
  getBaseController : Except GoError String
  /-- `kpAPI.GetKey(ctx, keyid)`. -/
  GetKey : Client → String → Except GoError Key
  /-- `kpAPI.DeleteKey(ctx, keyid, kp.ReturnRepresentation, f)` with `f.Force = force`. -/
  DeleteKey : Client → String → Bool → Except GoError Key
  /-- `kpAPI.CreateStandardKey(ctx, name, nil)`. -/
  CreateStandardKey : Client → String → Except GoError Key
  /-- `kpAPI.CreateImportedStandardKey(ctx, name, nil, payload)`. -/
  CreateImportedStandardKey : Client → String → String → Except GoError Key
  /-- `kpAPI.CreateRootKey(ctx, name, nil)`. -/
  CreateRootKey : Client → String → Except GoError Key
  /-- `kpAPI.CreateImportedRootKey(ctx, name, nil, payload, encryptedNonce, iv)`. -/
  CreateImportedRootKey : Client → String → String → String → String → Except GoError Key

/-- What an entry point transforms: the shared client, the local record, and the
remote calls issued so far (oldest first). -/
structure World where
  kpAPI : Client
  d : ResourceData
  calls : List Call
  deriving DecidableEq, Repr

/-- How a Go function ends: a value with a `nil` error, a non-`nil` error, or a panic. -/
inductive Outcome (α : Type) where
  | ok (a : α)
  | err (e : GoError)
  | panic
  deriving DecidableEq, Repr

/-- A Go function body acting on the world. -/
def Op (α : Type) : Type := World → Outcome α × World

/-- Plain return of a value. -/
def Op.pure {α : Type} (a : α) : Op α := fun w => (.ok a, w)

/-- Sequencing: an error or a panic of the first part ends the function. -/
def Op.bind {α β : Type} (x : Op α) (f : α → Op β) : Op β := fun w =>
  match x w with
  | (.ok a, w1) => f a w1
  | (.err e, w1) => (.err e, w1)
  | (.panic, w1) => (.panic, w1)

instance : Monad Op where
  pure := Op.pure
  bind := Op.bind

/-- `x, err := f(); if err != nil { return err }` for an acquisition that yields no value used later. -/
def acquire (e : Option GoError) : Op Unit := fun w =>
  match e with
  | none => (.ok (), w)
  | some err => (.err err, w)

/-- `return err`. -/
def fail {α : Type} (e : GoError) : Op α := fun w => (.err e, w)

/-- Indexing `xs[i]` of a Go slice: panics when out of range. -/
def index (xs : List String) (i : Nat) : Op String := fun w =>
  match xs[i]? with
  | some x => (.ok x, w)
  | none => (.panic, w)

/-- Reads the world. -/
def getWorld : Op World := fun w => (.ok w, w)

/-- Updates the local record. -/
def modifyD (f : ResourceData → ResourceData) : Op Unit := fun w => (.ok (), { w with d := f w.d })

/-- Updates the shared client. -/
def modifyClient (f : Client → Client) : Op Unit := fun w => (.ok (), { w with kpAPI := f w.kpAPI })

/-- Issues a remote call: records it and hands back the collaborator's answer. -/
def remote {α : Type} (c : Call) (answer : Except GoError α) : Op (Except GoError α) := fun w =>
  (.ok answer, { w with calls := w.calls ++ [c] })

/-- `fmt.Errorf` with a fixed text. -/
def errorf (text : String) : GoError := .plain text

/-- `kpAPI.Config.InstanceID = instanceID`. -/
def setInstanceID (instanceID : String) : Op Unit :=
  modifyClient fun k => { k with Config := { k.Config with InstanceID := instanceID } }

/-! ## Endpoint resolution

The block below occurs four times in the source with the same text
(Create 159-184, Read 260-288, Delete 350-375, Exists 411-437); Read also
records the service type in `instanceType`, which is the value returned here. -/

/-- The value given to `hpcsEndpointURL` (the `if endpointType == "public"` assignment). -/
def hpcsEndpointURL (endpointType : String) (resp : EndpointResp) : String :=
  if endpointType = "public" then "https://" ++ resp.«Public» ++ "/api/v2/keys"
  else "https://" ++ resp.«Private» ++ "/api/v2/keys"

/-- The `if crnData[4] == "hs-crypto" ... else if crnData[4] == "kms" ... else` block. -/
def resolveEndpoint (env : Env) (crnData : List String) (endpointType instanceID : String) :
    Op String := do
  let seg4 ← index crnData 4
  if seg4 = "hs-crypto" then
    let resp ← remote (.GetAPIEndpoint instanceID) (env.GetAPIEndpoint instanceID)
    match resp with
    | .error err => fail err
    | .ok resp =>
      match env.urlParse (hpcsEndpointURL endpointType resp) with
      | .error _ => fail (errorf "Error Parsing hpcs EndpointURL")
      | .ok u =>
        modifyClient fun k => { k with URL := some u }
        pure "hs-crypto"
  else if seg4 = "kms" then
    let w ← getWorld
    if endpointType = "private" then
      if !stringsHasPrefix w.kpAPI.Config.BaseURL "private" then
        modifyClient fun k =>
          { k with Config := { k.Config with BaseURL := "private." ++ k.Config.BaseURL } }
    pure "kms"
  else
    fail (errorf "Invalid or unsupported service Instance")

/-! ## The five entry points -/

/-- A call on the key-protect client `kpAPI`, in the state the client is in now. -/
def kpCall {α : Type} (mk : Client → Call) (answer : Client → Except GoError α) :
    Op (Except GoError α) := do
  let w ← getWorld
  remote (mk w.kpAPI) (answer w.kpAPI)

/-- `d.SetId(id)`. -/
def setId (id : String) : Op Unit := modifyD fun d => { d with Id := id }

/-- A failed type assertion `x.(T)`. -/
def assertionPanic {α : Type} : Op α := fun w => (.panic, w)

/-- `resourceIBMKmsKeyRead` (lines 241-321). `len(crnData)-3` and `len(crnData)-1` are
reached only after `crnData[3]` did not panic, so the subtractions are exact. -/
def resourceIBMKmsKeyRead (env : Env) : Op Unit := do
  acquire env.keyManagementAPI
  let w ← getWorld
  let crn := w.d.Id
  let crnData := stringsSplit crn ':'
  let endpointType ← index crnData 3
  let instanceID ← index crnData (crnData.length - 3)
  let keyid ← index crnData (crnData.length - 1)
  acquire env.HpcsEndpointAPI
  let instanceType ← resolveEndpoint env crnData endpointType instanceID
  setInstanceID instanceID
  let r ← kpCall (fun k => .GetKey k keyid) (fun k => env.GetKey k keyid)
  match r with
  | .error err => fail (errorf ("Get Key failed with error: " ++ err.Error))
  | .ok key =>
    modifyD fun d => { d with key_id := keyid }
    modifyD fun d => { d with standard_key := key.Extractable }
    modifyD fun d => { d with payload := key.Payload }
    modifyD fun d => { d with encrypted_nonce := key.EncryptedNonce }
    modifyD fun d => { d with iv_value := key.IV }
    modifyD fun d => { d with key_name := key.Name }
    modifyD fun d => { d with crn := key.CRN }
    modifyD fun d => { d with endpoint_type := endpointType }
    modifyD fun d => { d with type := instanceType }
    modifyD fun d => { d with force_delete := d.force_delete }
    modifyD fun d => { d with resource_name := key.Name }
    modifyD fun d => { d with resource_crn := key.CRN }
    modifyD fun d => { d with resource_status := key.State }
    match env.getBaseController with
    | .error err => fail err
    | .ok rcontroller =>
      let id := key.ID
      let crn1 := stringsTrimSuffix key.CRN (":key:" ++ id)
      modifyD fun d =>
        { d with resource_controller_url :=
            rcontroller ++ "/services/kms/" ++ env.QueryEscape crn1 ++ "%3A%3A" }

/-- `resourceIBMKmsKeyCreate` (lines 129-239). `d.GetOk("payload")` is `ok` exactly
when the payload is not the empty string. The `log.Printf` lines are left out. -/
def resourceIBMKmsKeyCreate (env : Env) : Op Unit := do
  acquire env.keyManagementAPI
  acquire env.HpcsEndpointAPI
  acquire env.ResourceControllerAPIV2
  let w ← getWorld
  let instanceID := w.d.instance_id
  let endpointType := w.d.endpoint_type
  let r ← remote (.GetInstance instanceID) (env.GetInstance instanceID)
  match r with
  | .error err => fail err
  | .ok instanceCRN =>
    let crnData := stringsSplit instanceCRN ':'
    let _ ← resolveEndpoint env crnData endpointType instanceID
    setInstanceID instanceID
    let w1 ← getWorld
    let name := w1.d.key_name
    let standardKey := w1.d.standard_key
    if standardKey then
      if w1.d.payload ≠ "" then
        let payload := w1.d.payload
        let r ← kpCall (fun k => .CreateImportedStandardKey k name payload)
          (fun k => env.CreateImportedStandardKey k name payload)
        match r with
        | .error err =>
          fail (errorf ("Error while creating standard key with payload: " ++ err.Error))
        | .ok stkey => setId stkey.CRN
      else
        let r ← kpCall (fun k => .CreateStandardKey k name)
          (fun k => env.CreateStandardKey k name)
        match r with
        | .error err => fail (errorf ("Error while creating standard key: " ++ err.Error))
        | .ok stkey => setId stkey.CRN
    else
      if w1.d.payload ≠ "" then
        let payload := w1.d.payload
        let encryptedNonce := w1.d.encrypted_nonce
        let iv := w1.d.iv_value
        let r ← kpCall (fun k => .CreateImportedRootKey k name payload encryptedNonce iv)
          (fun k => env.CreateImportedRootKey k name payload encryptedNonce iv)
        match r with
        | .error err =>
          fail (errorf ("Error while creating Root key with payload: " ++ err.Error))
        | .ok stkey => setId stkey.CRN
      else
        let r ← kpCall (fun k => .CreateRootKey k name) (fun k => env.CreateRootKey k name)
        match r with
        | .error err => fail (errorf ("Error while creating Root key: " ++ err.Error))
        | .ok stkey => setId stkey.CRN
    resourceIBMKmsKeyRead env

/-- `resourceIBMKmsKeyUpdate` (lines 323-330). -/
def resourceIBMKmsKeyUpdate (env : Env) : Op Unit := do
  let w ← getWorld
  if w.d.force_delete_changed then
    modifyD fun d => { d with force_delete := d.force_delete }
  resourceIBMKmsKeyRead env

/-- `resourceIBMKmsKeyDelete` (lines 332-389). -/
def resourceIBMKmsKeyDelete (env : Env) : Op Unit := do
  acquire env.keyManagementAPI
  let w ← getWorld
  let crn := w.d.Id
  let crnData := stringsSplit crn ':'
  let endpointType ← index crnData 3
  let instanceID ← index crnData (crnData.length - 3)
  let keyid ← index crnData (crnData.length - 1)
  setInstanceID instanceID
  acquire env.HpcsEndpointAPI
  let _ ← resolveEndpoint env crnData endpointType instanceID
  let w1 ← getWorld
  let force := w1.d.force_delete
  let r ← kpCall (fun k => .DeleteKey k keyid force) (fun k => env.DeleteKey k keyid force)
  match r with
  | .error err1 => fail (errorf ("Error while deleting: " ++ err1.Error))
  | .ok _ => setId ""

/-- `resourceIBMKmsKeyExists` (lines 391-449). An error result stands for the pair
`(false, err)`. The assertion `err.(*kp.Error)` panics on an error of another type. -/
def resourceIBMKmsKeyExists (env : Env) : Op Bool := do
  acquire env.keyManagementAPI
  acquire env.HpcsEndpointAPI
  let w ← getWorld
  let crn := w.d.Id
  let crnData := stringsSplit crn ':'
  let endpointType ← index crnData 3
  let instanceID ← index crnData (crnData.length - 3)
  let keyid ← index crnData (crnData.length - 1)
  setInstanceID instanceID
  let _ ← resolveEndpoint env crnData endpointType instanceID
  let r ← kpCall (fun k => .GetKey k keyid) (fun k => env.GetKey k keyid)
  match r with
  | .error err =>
    match err with
    | .kp StatusCode _ => if StatusCode = 404 then pure false else fail err
    | .plain _ => assertionPanic
  | .ok _ => pure true

/-! ## Vocabulary of the statements -/

/-- Number of colon-separated segments of an identifier: `len(crnData)`. -/
def crnLength (id : String) : Nat :=
  (stringsSplit id ':').length

/-- Segment `i` of an identifier: `crnData[i]` (the empty string when out of range). -/
def crnSegment (id : String) (i : Nat) : String :=
  ((stringsSplit id ':')[i]?).getD ""

/-- The world after `kpAPI.Config.InstanceID = instanceID`. -/
def World.withInstanceID (w : World) (instanceID : String) : World :=
  { w with kpAPI := { w.kpAPI with Config := { w.kpAPI.Config with InstanceID := instanceID } } }

/-- The world after `kpAPI.Config.BaseURL = base`. -/
def World.withBaseURL (w : World) (base : String) : World :=
  { w with kpAPI := { w.kpAPI with Config := { w.kpAPI.Config with BaseURL := base } } }

/-- The world after `kpAPI.URL = u`. -/
def World.withURL (w : World) (u : URL) : World :=
  { w with kpAPI := { w.kpAPI with URL := some u } }

/-- The world after one more remote call. -/
def World.withCall (w : World) (c : Call) : World :=
  { w with calls := w.calls ++ [c] }

/-- The world after `d.SetId(id)`. -/
def World.withId (w : World) (id : String) : World :=
  { w with d := { w.d with Id := id } }

/-- The base URL the KMS branch leaves behind: prefixed with `private.` when the
endpoint type is `private` and the URL does not start with `private` yet. -/
def kmsBaseURL (endpointType base : String) : String :=
  if endpointType = "private" ∧ stringsHasPrefix base "private" = false then "private." ++ base
  else base

/-- The error of the last `else` of the resolution block. -/
def unsupportedService : GoError := .plain "Invalid or unsupported service Instance"

/-- The error returned when `url.Parse` rejects the HPCS endpoint URL. -/
def urlParseError : GoError := .plain "Error Parsing hpcs EndpointURL"

/-- The HPCS branch was taken on the way from `w` to `w1`: the first call issued is the
endpoint lookup for `inst`, and when the lookup and the parse of the URL built for
`endpointType` succeed the client's URL is the parsed one. -/
def HpcsBranchTaken (env : Env) (endpointType inst : String) (w w1 : World) : Prop :=
  (∃ rest, w1.calls = w.calls ++ Call.GetAPIEndpoint inst :: rest) ∧
    ∀ resp u, env.GetAPIEndpoint inst = .ok resp →
      env.urlParse (hpcsEndpointURL endpointType resp) = .ok u → w1.kpAPI.URL = some u

/-- The KMS branch was taken on the way from `w` to `w1`: the only call issued is one
key operation (so no endpoint lookup), and the client's URL is untouched. -/
def KmsBranchTaken (w w1 : World) : Prop :=
  (∃ c, c.isKeyOp = true ∧ w1.calls = w.calls ++ [c]) ∧ w1.kpAPI.URL = w.kpAPI.URL

/-- The call is a key fetch or deletion for key `keyid` on a client whose instance ID is `inst`. -/
def KeyOpFor (inst keyid : String) : Call → Prop
  | .GetKey k id => k.Config.InstanceID = inst ∧ id = keyid
  | .DeleteKey k id _ => k.Config.InstanceID = inst ∧ id = keyid
  | _ => False

/-- The client a key operation was issued on. -/
def Call.client? : Call → Option Client
  | .GetInstance _ => none
  | .GetAPIEndpoint _ => none
  | .GetKey k _ => some k
  | .DeleteKey k _ _ => some k
  | .CreateStandardKey k _ => some k
  | .CreateImportedStandardKey k _ _ => some k
  | .CreateRootKey k _ => some k
  | .CreateImportedRootKey k _ _ _ _ => some k

/-- Every run of `x` relates the world it starts in to the world it ends in by `R`. -/
structure Op.Keeps {α : Type} (R : World → World → Prop) (x : Op α) : Prop where
  run : ∀ w, R w (x w).2

/-- A relation between worlds that holds along no step and along consecutive steps. -/
structure StepRel (R : World → World → Prop) : Prop where
  refl : ∀ w, R w w
  trans : ∀ w1 w2 w3, R w1 w2 → R w2 w3 → R w1 w3

/-- The identifier and `force_delete` are kept, and the calls added are neither
creations nor deletions. -/
def ReadOnly (w w1 : World) : Prop :=
  w1.d.Id = w.d.Id ∧ w1.d.force_delete = w.d.force_delete ∧
    ∃ cs, w1.calls = w.calls ++ cs ∧ ∀ c ∈ cs, c.isCreate = false ∧ c.isDelete = false

/-- The base URL is kept, or it did not start with `private` and got `private.` in front. -/
def BaseStep (w w1 : World) : Prop :=
  w1.kpAPI.Config.BaseURL = w.kpAPI.Config.BaseURL ∨
    (stringsHasPrefix w.kpAPI.Config.BaseURL "private" = false ∧
      w1.kpAPI.Config.BaseURL = "private." ++ w.kpAPI.Config.BaseURL)

/-- How Read, Delete and Exists behave around the resolution block started in `w0`, with
`r` the result of the entry point: after a successful resolution one key operation
for `keyid` is issued on the client with instance ID `inst` and the client's URLs
are left as resolved; an error of the resolution is the result of the entry point. -/
structure AroundResolution {α : Type} (env : Env) (crnData : List String)
    (et inst keyid : String) (w0 : World) (r : Outcome α × World) : Prop where
  ok : ∀ ty w1, resolveEndpoint env crnData et inst w0 = (.ok ty, w1) →
    ∃ c, c.isKeyOp = true ∧ KeyOpFor inst keyid c ∧ r.2.calls = w1.calls ++ [c] ∧
      r.2.kpAPI.URL = w1.kpAPI.URL ∧
      r.2.kpAPI.Config.BaseURL = w1.kpAPI.Config.BaseURL ∧
      r.2.kpAPI.Config.InstanceID = inst
  err : ∀ e w1, resolveEndpoint env crnData et inst w0 = (.err e, w1) → r = (.err e, w1)

/-- The five entry points of the resource. -/
inductive EntryPoint where
  | Create | Read | Update | Delete | Exists
  deriving DecidableEq, Repr

/-- The world an entry point leaves behind. -/
def EntryPoint.run (env : Env) : EntryPoint → World → World
  | .Create, w => (resourceIBMKmsKeyCreate env w).2
  | .Read, w => (resourceIBMKmsKeyRead env w).2
  | .Update, w => (resourceIBMKmsKeyUpdate env w).2
  | .Delete, w => (resourceIBMKmsKeyDelete env w).2
  | .Exists, w => (resourceIBMKmsKeyExists env w).2

/-- Entry points run one after the other on the same client, each against the answers
its environment gives. -/
def runAll : List (EntryPoint × Env) → World → World
  | [], w => w
  | (e, env) :: rest, w => runAll rest (e.run env w)

/-- The creation call Create issues for the local record `d` on the client `k`. -/
def creationCall (k : Client) (d : ResourceData) : Call :=
  if d.standard_key then
    if d.payload ≠ "" then .CreateImportedStandardKey k d.key_name d.payload
    else .CreateStandardKey k d.key_name
  else
    if d.payload ≠ "" then
      .CreateImportedRootKey k d.key_name d.payload d.encrypted_nonce d.iv_value
    else .CreateRootKey k d.key_name

/-- The answer of the SDK to `creationCall k d`. -/
def creationAnswer (env : Env) (k : Client) (d : ResourceData) : Except GoError Key :=
  if d.standard_key then
    if d.payload ≠ "" then env.CreateImportedStandardKey k d.key_name d.payload
    else env.CreateStandardKey k d.key_name
  else
    if d.payload ≠ "" then
      env.CreateImportedRootKey k d.key_name d.payload d.encrypted_nonce d.iv_value
    else env.CreateRootKey k d.key_name

/-- The text Create puts in front of the SDK error of `creationCall k d`. -/
def creationErrorText (d : ResourceData) : String :=
  if d.standard_key then
    if d.payload ≠ "" then "Error while creating standard key with payload: "
    else "Error while creating standard key: "
  else
    if d.payload ≠ "" then "Error while creating Root key with payload: "
    else "Error while creating Root key: "

/-! ## Sample collaborators and worlds -/

/-- Upper-case hexadecimal digit. -/
def hexDigit (n : Nat) : Char :=
  "0123456789ABCDEF".data.getD n '0'

/-- Percent-encoding of one character as `url.QueryEscape` does it: letters, digits and
`-_.~` stay, a space becomes `+`, every other byte becomes `%XX`. -/
def escapeChar (c : Char) : List Char :=
  if c.isAlphanum || c == '-' || c == '_' || c == '.' || c == '~' then [c]
  else if c == ' ' then ['+']
  else (String.utf8EncodeChar c).flatMap fun b =>
    ['%', hexDigit (b.toNat / 16), hexDigit (b.toNat % 16)]

/-- Percent-encoding of a string, character by character. -/
def sampleQueryEscape (s : String) : String :=
  String.mk (s.data.flatMap escapeChar)

/-- The key the sample service holds under `keyid` in instance `inst-1`. -/
def sampleKey (keyid name : String) (extractable : Bool) (payload nonce iv : String) : Key where
  ID := keyid
  CRN := "crn:v1:bluemix:public:kms:us-south:a/acct:inst-1:key:" ++ keyid
  Name := name
  Extractable := extractable
  Payload := payload
  EncryptedNonce := nonce
  IV := iv
  State := 1

/-- Collaborators that all answer: the key `missing` is not found (HTTP 404), every other
key exists; `url.Parse` accepts every string. -/
def sampleEnv : Env where
  keyManagementAPI := none
  HpcsEndpointAPI := none
  ResourceControllerAPIV2 := none
  GetInstance := fun i => .ok ("crn:v1:bluemix:public:kms:us-south:a/acct:" ++ i ++ "::")
  GetAPIEndpoint := fun _ => .ok ⟨"api.public.hpcs.example", "api.private.hpcs.example"⟩
  urlParse := fun s => .ok ⟨s⟩
  QueryEscape := sampleQueryEscape
  getBaseController := .ok "https://cloud.ibm.com"
  GetKey := fun _ k =>
    if k = "missing" then .error (.kp 404 "key not found") else .ok (sampleKey k "my-key" false "" "" "")
  DeleteKey := fun _ k _ => .ok (sampleKey k "my-key" false "" "" "")
  CreateStandardKey := fun _ n => .ok (sampleKey "key-1" n true "" "" "")
  CreateImportedStandardKey := fun _ n p => .ok (sampleKey "key-1" n true p "" "")
  CreateRootKey := fun _ n => .ok (sampleKey "key-1" n false "" "" "")
  CreateImportedRootKey := fun _ n p e i => .ok (sampleKey "key-1" n false p e i)

/-- A local record with the given identifier and endpoint type, the rest at its defaults. -/
def sampleData (id endpointType : String) : ResourceData where
  Id := id
  instance_id := "inst-1"
  key_id := ""
  key_name := "my-key"
  type := ""
  endpoint_type := endpointType
  standard_key := false
  payload := ""
  encrypted_nonce := ""
  iv_value := ""
  force_delete := false
  crn := ""
  resource_name := ""
  resource_crn := ""
  resource_status := 0
  resource_group_name := ""
  resource_controller_url := ""
  force_delete_changed := false

/-- A fresh client with the given base URL. -/
def sampleClient (base : String) : Client where
  URL := none
  Config := { BaseURL := base, InstanceID := "" }

/-- A key of a Key Protect instance whose identifier has `private` at segment 3. -/
def sampleKmsWorld : World where
  kpAPI := sampleClient "us-south.kms.cloud.ibm.com"
  d := sampleData "crn:v1:bluemix:private:kms:us-south:a/acct:inst-1:key:key-1" "private"
  calls := []

/-- The same key on a client whose base URL starts with `private` but not with `private.`. -/
def samplePrivatelinkWorld : World where
  kpAPI := sampleClient "privatelink.kms.cloud.ibm.com"
  d := sampleData "crn:v1:bluemix:private:kms:us-south:a/acct:inst-1:key:key-1" "private"
  calls := []

/-- A key of an HPCS instance: segment 3 of the identifier is `public`, the field
`endpoint_type` of the record is `private`. -/
def sampleHpcsWorld : World where
  kpAPI := sampleClient "us-south.kms.cloud.ibm.com"
  d := sampleData "crn:v1:bluemix:public:hs-crypto:us-south:a/acct:inst-1:key:key-1" "private"
  calls := []

/-- A key of a Key Protect instance that the sample service does not hold. -/
def sampleMissingWorld : World where
  kpAPI := sampleClient "us-south.kms.cloud.ibm.com"
  d := sampleData "crn:v1:bluemix:public:kms:us-south:a/acct:inst-1:key:missing" "public"
  calls := []

theorem stringsHasPrefix_private_dot (b : String) :
    stringsHasPrefix ("private." ++ b) "private" = true := by
  have h : ("private." ++ b).data = 'p' :: 'r' :: 'i' :: 'v' :: 'a' :: 't' :: 'e' :: '.' :: b.data := by
    simp [String.data_append]
  have h2 : ("private" : String).data = ['p', 'r', 'i', 'v', 'a', 't', 'e'] := rfl
  simp [stringsHasPrefix, h, h2, List.isPrefixOf]

theorem stringsHasPrefix_trans (s p q : String) (hp : stringsHasPrefix s p = true)
    (hq : stringsHasPrefix p q = true) : stringsHasPrefix s q = true := by
  simp only [stringsHasPrefix, List.isPrefixOf_iff_prefix] at *
  exact hq.trans hp

theorem stringsTrimSuffix_append (x suf : String) : stringsTrimSuffix (x ++ suf) suf = x := by
  have h : stringsHasSuffix (x ++ suf) suf = true := by
    simp [stringsHasSuffix, String.data_append, List.isPrefixOf_iff_prefix]
  simp [stringsTrimSuffix, h, String.data_append]

theorem stringsTrimSuffix_of_not_suffix (s suf : String) (h : ¬ ∃ x, s = x ++ suf) :
    stringsTrimSuffix s suf = s := by
  have hs : stringsHasSuffix s suf = false := by
    cases hb : stringsHasSuffix s suf with
    | false => rfl
    | true =>
      exfalso
      apply h
      simp only [stringsHasSuffix, List.isPrefixOf_iff_prefix, List.reverse_prefix] at hb
      obtain ⟨t, ht⟩ := hb
      exact ⟨String.mk t, by apply String.ext; simp [String.data_append, ht]⟩
  simp [stringsTrimSuffix, hs]


/-! ## Lemmas on the monad -/

theorem bind_run {α β : Type} (x : Op α) (f : α → Op β) (w : World) :
    (x >>= f) w = Op.bind x f w := rfl

theorem pure_run {α : Type} (a : α) (w : World) : (pure a : Op α) w = (.ok a, w) := rfl

theorem resolve_kms (env : Env) (crnData : List String) (et inst : String) (w : World)
    (h4 : crnData[4]? = some "kms") :
    resolveEndpoint env crnData et inst w
      = (.ok "kms", w.withBaseURL (kmsBaseURL et w.kpAPI.Config.BaseURL)) := by
  by_cases he : et = "private"
  · cases hp : stringsHasPrefix w.kpAPI.Config.BaseURL "private" <;>
    simp [resolveEndpoint, bind_run, Op.bind, index, h4, getWorld, he, hp, modifyClient, pure_run,
      World.withBaseURL, kmsBaseURL]
  · simp [resolveEndpoint, bind_run, Op.bind, index, h4, getWorld, he, pure_run,
      World.withBaseURL, kmsBaseURL]

theorem resolve_hs (env : Env) (crnData : List String) (et inst : String) (w : World)
    (h4 : crnData[4]? = some "hs-crypto") :
    resolveEndpoint env crnData et inst w =
      match env.GetAPIEndpoint inst with
      | .error err => (.err err, w.withCall (.GetAPIEndpoint inst))
      | .ok resp =>
        match env.urlParse (hpcsEndpointURL et resp) with
        | .error _ => (.err urlParseError, w.withCall (.GetAPIEndpoint inst))
        | .ok u => (.ok "hs-crypto", (w.withCall (.GetAPIEndpoint inst)).withURL u) := by
  cases hl : env.GetAPIEndpoint inst with
  | error err =>
    simp [resolveEndpoint, bind_run, Op.bind, index, h4, remote, hl, fail, World.withCall]
  | ok resp =>
    cases hu : env.urlParse (hpcsEndpointURL et resp) with
    | error e =>
      simp [resolveEndpoint, bind_run, Op.bind, index, h4, remote, hl, hu, fail, World.withCall,
        urlParseError, errorf]
    | ok u =>
      simp [resolveEndpoint, bind_run, Op.bind, index, h4, remote, hl, hu, World.withCall,
        World.withURL, modifyClient, pure_run]

theorem resolve_other (env : Env) (crnData : List String) (et inst seg4 : String) (w : World)
    (h4 : crnData[4]? = some seg4) (hhs : seg4 ≠ "hs-crypto") (hkms : seg4 ≠ "kms") :
    resolveEndpoint env crnData et inst w = (.err unsupportedService, w) := by
  simp [resolveEndpoint, bind_run, Op.bind, index, h4, hhs, hkms, fail, unsupportedService, errorf]

theorem resolve_short (env : Env) (crnData : List String) (et inst : String) (w : World)
    (h4 : crnData[4]? = none) :
    resolveEndpoint env crnData et inst w = (.panic, w) := by
  simp [resolveEndpoint, bind_run, Op.bind, index, h4]


/-! ## Invariants of a run -/

theorem keeps_bind {α β : Type} {R : World → World → Prop} (hR : StepRel R) (x : Op α)
    (f : α → Op β) (hx : Op.Keeps R x) (hf : ∀ a, Op.Keeps R (f a)) :
    Op.Keeps R (x >>= f) := by
  constructor
  intro w
  have h1 := hx.run w
  rw [bind_run]
  unfold Op.bind
  rcases hxw : x w with ⟨o, w1⟩
  rw [hxw] at h1
  cases o with
  | ok a => exact hR.trans _ _ _ h1 ((hf a).run w1)
  | err e => exact h1
  | panic => exact h1

theorem keeps_pure {α : Type} {R : World → World → Prop} (hR : StepRel R) (a : α) :
    Op.Keeps R (pure a : Op α) := ⟨fun w => hR.refl w⟩

theorem keeps_fail {α : Type} {R : World → World → Prop} (hR : StepRel R) (e : GoError) :
    Op.Keeps R (fail e : Op α) := ⟨fun w => hR.refl w⟩

theorem keeps_assertionPanic {α : Type} {R : World → World → Prop} (hR : StepRel R) :
    Op.Keeps R (assertionPanic : Op α) := ⟨fun w => hR.refl w⟩

theorem keeps_acquire {R : World → World → Prop} (hR : StepRel R) (e : Option GoError) :
    Op.Keeps R (acquire e) := by
  constructor
  intro w
  cases e <;> exact hR.refl w

theorem keeps_index {R : World → World → Prop} (hR : StepRel R) (xs : List String) (i : Nat) :
    Op.Keeps R (index xs i) := by
  constructor
  intro w
  unfold index
  cases xs[i]? <;> exact hR.refl w

theorem keeps_getWorld {R : World → World → Prop} (hR : StepRel R) :
    Op.Keeps R getWorld := ⟨fun w => hR.refl w⟩

theorem readOnly_stepRel : StepRel ReadOnly where
  refl := fun w => ⟨rfl, rfl, [], by simp, by simp⟩
  trans := by
    rintro w1 w2 w3 ⟨a1, b1, cs1, c1, d1⟩ ⟨a2, b2, cs2, c2, d2⟩
    refine ⟨a2.trans a1, b2.trans b1, cs1 ++ cs2, by rw [c2, c1, List.append_assoc], ?_⟩
    intro c hc
    rcases List.mem_append.mp hc with h | h
    · exact d1 c h
    · exact d2 c h

theorem resolve_readOnly (env : Env) (crnData : List String) (et inst : String) :
    Op.Keeps ReadOnly (resolveEndpoint env crnData et inst) := by
  constructor
  intro w
  cases h4 : crnData[4]? with
  | none => rw [resolve_short _ _ _ _ _ h4]; exact readOnly_stepRel.refl w
  | some seg4 =>
    by_cases hhs : seg4 = "hs-crypto"
    · subst hhs
      rw [resolve_hs _ _ _ _ _ h4]
      have hc : ReadOnly w (w.withCall (.GetAPIEndpoint inst)) :=
        ⟨rfl, rfl, [.GetAPIEndpoint inst], rfl, by simp [Call.isCreate, Call.isDelete]⟩
      split
      · exact hc
      · split
        · exact hc
        · exact hc
    · by_cases hkms : seg4 = "kms"
      · subst hkms
        rw [resolve_kms _ _ _ _ _ h4]
        exact ⟨rfl, rfl, [], by simp [World.withBaseURL], by simp⟩
      · rw [resolve_other _ _ _ _ _ _ h4 hhs hkms]
        exact readOnly_stepRel.refl w

theorem readOnly_modifyD (f : ResourceData → ResourceData) (h1 : ∀ d, (f d).Id = d.Id)
    (h2 : ∀ d, (f d).force_delete = d.force_delete) : Op.Keeps ReadOnly (modifyD f) :=
  ⟨fun w => ⟨h1 w.d, h2 w.d, [], by simp [modifyD], by simp⟩⟩

theorem readOnly_modifyClient (f : Client → Client) : Op.Keeps ReadOnly (modifyClient f) :=
  ⟨fun w => ⟨rfl, rfl, [], by simp [modifyClient], by simp⟩⟩

theorem readOnly_kpCall {α : Type} (mk : Client → Call) (answer : Client → Except GoError α)
    (h : ∀ k, (mk k).isCreate = false ∧ (mk k).isDelete = false) :
    Op.Keeps ReadOnly (kpCall mk answer) :=
  ⟨fun w => ⟨rfl, rfl, [mk w.kpAPI], rfl, by simpa using h w.kpAPI⟩⟩

theorem readOnly_setInstanceID (inst : String) : Op.Keeps ReadOnly (setInstanceID inst) :=
  readOnly_modifyClient _

set_option maxRecDepth 8000 in
theorem read_readOnly (env : Env) : Op.Keeps ReadOnly (resourceIBMKmsKeyRead env) := by
  have hR := readOnly_stepRel
  unfold resourceIBMKmsKeyRead
  dsimp only []
  repeat first
    | with_reducible apply resolve_readOnly
    | with_reducible apply keeps_acquire hR
    | with_reducible apply keeps_getWorld hR
    | with_reducible apply keeps_index hR
    | with_reducible apply keeps_fail hR
    | with_reducible apply keeps_pure hR
    | with_reducible apply readOnly_setInstanceID
    | with_reducible apply readOnly_modifyD
    | with_reducible apply readOnly_kpCall
    | with_reducible apply keeps_bind hR
    | (intro _; show _ = _; rfl)
    | (intro _; show _ ∧ _; exact ⟨rfl, rfl⟩)
    | split
    | intro _


/-! ## Runs of Read, Delete and Exists around the resolution block -/

theorem read_of_resolve_ok (env : Env) (w w1 : World) (et inst keyid ty : String)
    (hk : env.keyManagementAPI = none) (hh : env.HpcsEndpointAPI = none)
    (h3 : (stringsSplit w.d.Id ':')[3]? = some et)
    (hi : (stringsSplit w.d.Id ':')[(stringsSplit w.d.Id ':').length - 3]? = some inst)
    (hkid : (stringsSplit w.d.Id ':')[(stringsSplit w.d.Id ':').length - 1]? = some keyid)
    (hres : resolveEndpoint env (stringsSplit w.d.Id ':') et inst w = (.ok ty, w1)) :
    (resourceIBMKmsKeyRead env w).2.calls
        = w1.calls ++ [.GetKey (w1.withInstanceID inst).kpAPI keyid] ∧
      (resourceIBMKmsKeyRead env w).2.kpAPI = (w1.withInstanceID inst).kpAPI := by
  cases hg : env.GetKey (w1.withInstanceID inst).kpAPI keyid with
  | error err =>
    simp only [World.withInstanceID] at hg
    simp [resourceIBMKmsKeyRead, bind_run, Op.bind, acquire, hk, hh, getWorld, index, h3, hi,
      hkid, setInstanceID, modifyClient, hres, kpCall, remote, hg, fail, World.withInstanceID]
  | ok key =>
    simp only [World.withInstanceID] at hg
    cases hb : env.getBaseController with
    | error err =>
      simp [resourceIBMKmsKeyRead, bind_run, Op.bind, acquire, hk, hh, getWorld, index, h3, hi,
        hkid, setInstanceID, modifyClient, hres, kpCall, remote, hg, hb, fail, modifyD,
        World.withInstanceID]
    | ok base =>
      simp [resourceIBMKmsKeyRead, bind_run, Op.bind, acquire, hk, hh, getWorld, index, h3, hi,
        hkid, setInstanceID, modifyClient, hres, kpCall, remote, hg, hb, modifyD,
        World.withInstanceID]

theorem read_of_resolve_err (env : Env) (w w1 : World) (et inst keyid : String) (e : GoError)
    (hk : env.keyManagementAPI = none) (hh : env.HpcsEndpointAPI = none)
    (h3 : (stringsSplit w.d.Id ':')[3]? = some et)
    (hi : (stringsSplit w.d.Id ':')[(stringsSplit w.d.Id ':').length - 3]? = some inst)
    (hkid : (stringsSplit w.d.Id ':')[(stringsSplit w.d.Id ':').length - 1]? = some keyid)
    (hres : resolveEndpoint env (stringsSplit w.d.Id ':') et inst w = (.err e, w1)) :
    resourceIBMKmsKeyRead env w = (.err e, w1) := by
  simp [resourceIBMKmsKeyRead, bind_run, Op.bind, acquire, hk, hh, getWorld, index, h3, hi,
    hkid, hres]

theorem delete_of_resolve_ok (env : Env) (w w1 : World) (et inst keyid ty : String)
    (hk : env.keyManagementAPI = none) (hh : env.HpcsEndpointAPI = none)
    (h3 : (stringsSplit w.d.Id ':')[3]? = some et)
    (hi : (stringsSplit w.d.Id ':')[(stringsSplit w.d.Id ':').length - 3]? = some inst)
    (hkid : (stringsSplit w.d.Id ':')[(stringsSplit w.d.Id ':').length - 1]? = some keyid)
    (hres : resolveEndpoint env (stringsSplit w.d.Id ':') et inst (w.withInstanceID inst)
      = (.ok ty, w1)) :
    resourceIBMKmsKeyDelete env w =
      match env.DeleteKey w1.kpAPI keyid w1.d.force_delete with
      | .error err1 => (.err (.plain ("Error while deleting: " ++ err1.Error)),
          w1.withCall (.DeleteKey w1.kpAPI keyid w1.d.force_delete))
      | .ok _ => (.ok (), (w1.withCall (.DeleteKey w1.kpAPI keyid w1.d.force_delete)).withId "") := by
  simp only [World.withInstanceID] at hres
  cases hd : env.DeleteKey w1.kpAPI keyid w1.d.force_delete <;>
  simp [resourceIBMKmsKeyDelete, bind_run, Op.bind, acquire, hk, hh, getWorld, index, h3, hi,
    hkid, setInstanceID, modifyClient, hres, kpCall, remote, hd, fail, errorf, setId, modifyD,
    World.withCall, World.withId]

theorem delete_of_resolve_err (env : Env) (w w1 : World) (et inst keyid : String) (e : GoError)
    (hk : env.keyManagementAPI = none) (hh : env.HpcsEndpointAPI = none)
    (h3 : (stringsSplit w.d.Id ':')[3]? = some et)
    (hi : (stringsSplit w.d.Id ':')[(stringsSplit w.d.Id ':').length - 3]? = some inst)
    (hkid : (stringsSplit w.d.Id ':')[(stringsSplit w.d.Id ':').length - 1]? = some keyid)
    (hres : resolveEndpoint env (stringsSplit w.d.Id ':') et inst (w.withInstanceID inst)
      = (.err e, w1)) :
    resourceIBMKmsKeyDelete env w = (.err e, w1) := by
  simp only [World.withInstanceID] at hres
  simp [resourceIBMKmsKeyDelete, bind_run, Op.bind, acquire, hk, hh, getWorld, index, h3, hi,
    hkid, setInstanceID, modifyClient, hres]

theorem exists_of_resolve_ok (env : Env) (w w1 : World) (et inst keyid ty : String)
    (hk : env.keyManagementAPI = none) (hh : env.HpcsEndpointAPI = none)
    (h3 : (stringsSplit w.d.Id ':')[3]? = some et)
    (hi : (stringsSplit w.d.Id ':')[(stringsSplit w.d.Id ':').length - 3]? = some inst)
    (hkid : (stringsSplit w.d.Id ':')[(stringsSplit w.d.Id ':').length - 1]? = some keyid)
    (hres : resolveEndpoint env (stringsSplit w.d.Id ':') et inst (w.withInstanceID inst)
      = (.ok ty, w1)) :
    resourceIBMKmsKeyExists env w =
      match env.GetKey w1.kpAPI keyid with
      | .error (.kp s t) =>
        (if s = 404 then .ok false else .err (.kp s t), w1.withCall (.GetKey w1.kpAPI keyid))
      | .error (.plain _) => (.panic, w1.withCall (.GetKey w1.kpAPI keyid))
      | .ok _ => (.ok true, w1.withCall (.GetKey w1.kpAPI keyid)) := by
  simp only [World.withInstanceID] at hres
  cases hg : env.GetKey w1.kpAPI keyid with
  | error err =>
    cases err with
    | kp s t =>
      by_cases hs : s = 404 <;>
      simp [resourceIBMKmsKeyExists, bind_run, Op.bind, acquire, hk, hh, getWorld, index, h3, hi,
        hkid, setInstanceID, modifyClient, hres, kpCall, remote, hg, pure_run, World.withCall, hs,
        fail]
    | plain t =>
      simp [resourceIBMKmsKeyExists, bind_run, Op.bind, acquire, hk, hh, getWorld, index, h3, hi,
        hkid, setInstanceID, modifyClient, hres, kpCall, remote, hg, World.withCall,
        assertionPanic]
  | ok key =>
    simp [resourceIBMKmsKeyExists, bind_run, Op.bind, acquire, hk, hh, getWorld, index, h3, hi,
      hkid, setInstanceID, modifyClient, hres, kpCall, remote, hg, pure_run, World.withCall]

theorem exists_of_resolve_err (env : Env) (w w1 : World) (et inst keyid : String) (e : GoError)
    (hk : env.keyManagementAPI = none) (hh : env.HpcsEndpointAPI = none)
    (h3 : (stringsSplit w.d.Id ':')[3]? = some et)
    (hi : (stringsSplit w.d.Id ':')[(stringsSplit w.d.Id ':').length - 3]? = some inst)
    (hkid : (stringsSplit w.d.Id ':')[(stringsSplit w.d.Id ':').length - 1]? = some keyid)
    (hres : resolveEndpoint env (stringsSplit w.d.Id ':') et inst (w.withInstanceID inst)
      = (.err e, w1)) :
    resourceIBMKmsKeyExists env w = (.err e, w1) := by
  simp only [World.withInstanceID] at hres
  simp [resourceIBMKmsKeyExists, bind_run, Op.bind, acquire, hk, hh, getWorld, index, h3, hi,
    hkid, setInstanceID, modifyClient, hres]


/-! ## Segments of an identifier -/

theorem segment_some (id : String) (i : Nat) (h : i < crnLength id) :
    (stringsSplit id ':')[i]? = some (crnSegment id i) := by
  unfold crnLength at h
  simp [crnSegment, List.getElem?_eq_getElem h]

theorem resolve_d (env : Env) (crnData : List String) (et inst : String) (w : World) :
    (resolveEndpoint env crnData et inst w).2.d = w.d := by
  cases h4 : crnData[4]? with
  | none => rw [resolve_short _ _ _ _ _ h4]
  | some seg4 =>
    by_cases hhs : seg4 = "hs-crypto"
    · subst hhs
      rw [resolve_hs _ _ _ _ _ h4]
      split
      · rfl
      · split <;> rfl
    · by_cases hkms : seg4 = "kms"
      · subst hkms
        rw [resolve_kms _ _ _ _ _ h4]
        rfl
      · rw [resolve_other _ _ _ _ _ _ h4 hhs hkms]

/-! ## The base URL along a run -/

theorem baseStep_stepRel : StepRel BaseStep where
  refl := fun _ => Or.inl rfl
  trans := by
    intro w1 w2 w3 h12 h23
    rcases h12 with h12 | ⟨n12, h12⟩
    · rcases h23 with h23 | ⟨n23, h23⟩
      · exact Or.inl (h23.trans h12)
      · exact Or.inr ⟨by rw [← h12]; exact n23, by rw [h23, h12]⟩
    · rcases h23 with h23 | ⟨n23, _⟩
      · exact Or.inr ⟨n12, h23.trans h12⟩
      · rw [h12, stringsHasPrefix_private_dot] at n23
        exact absurd n23 (by simp)

theorem kmsBaseURL_step (et : String) (w : World) :
    BaseStep w (w.withBaseURL (kmsBaseURL et w.kpAPI.Config.BaseURL)) := by
  unfold kmsBaseURL
  split
  · next h => exact Or.inr ⟨h.2, rfl⟩
  · exact Or.inl rfl

theorem resolve_baseStep (env : Env) (crnData : List String) (et inst : String) :
    Op.Keeps BaseStep (resolveEndpoint env crnData et inst) := by
  constructor
  intro w
  cases h4 : crnData[4]? with
  | none => rw [resolve_short _ _ _ _ _ h4]; exact Or.inl rfl
  | some seg4 =>
    by_cases hhs : seg4 = "hs-crypto"
    · subst hhs
      rw [resolve_hs _ _ _ _ _ h4]
      split
      · exact Or.inl rfl
      · split <;> exact Or.inl rfl
    · by_cases hkms : seg4 = "kms"
      · subst hkms
        rw [resolve_kms _ _ _ _ _ h4]
        exact kmsBaseURL_step et w
      · rw [resolve_other _ _ _ _ _ _ h4 hhs hkms]
        exact Or.inl rfl

theorem baseStep_modifyD (f : ResourceData → ResourceData) : Op.Keeps BaseStep (modifyD f) :=
  ⟨fun _ => Or.inl rfl⟩

theorem baseStep_setId (id : String) : Op.Keeps BaseStep (setId id) :=
  ⟨fun _ => Or.inl rfl⟩

theorem baseStep_setInstanceID (inst : String) : Op.Keeps BaseStep (setInstanceID inst) :=
  ⟨fun _ => Or.inl rfl⟩

theorem baseStep_kpCall {α : Type} (mk : Client → Call) (answer : Client → Except GoError α) :
    Op.Keeps BaseStep (kpCall mk answer) :=
  ⟨fun _ => Or.inl rfl⟩

theorem baseStep_remote {α : Type} (c : Call) (answer : Except GoError α) :
    Op.Keeps BaseStep (remote c answer) :=
  ⟨fun _ => Or.inl rfl⟩

set_option maxRecDepth 8000 in
theorem read_baseStep (env : Env) : Op.Keeps BaseStep (resourceIBMKmsKeyRead env) := by
  have hR := baseStep_stepRel
  unfold resourceIBMKmsKeyRead
  dsimp only []
  repeat first
    | with_reducible apply resolve_baseStep
    | with_reducible apply keeps_acquire hR
    | with_reducible apply keeps_getWorld hR
    | with_reducible apply keeps_index hR
    | with_reducible apply keeps_fail hR
    | with_reducible apply keeps_pure hR
    | with_reducible apply baseStep_setInstanceID
    | with_reducible apply baseStep_modifyD
    | with_reducible apply baseStep_kpCall
    | with_reducible apply keeps_bind hR
    | split
    | intro _

set_option maxRecDepth 8000 in
theorem create_baseStep (env : Env) : Op.Keeps BaseStep (resourceIBMKmsKeyCreate env) := by
  have hR := baseStep_stepRel
  unfold resourceIBMKmsKeyCreate
  dsimp only []
  repeat first
    | with_reducible apply resolve_baseStep
    | with_reducible apply read_baseStep
    | with_reducible apply keeps_acquire hR
    | with_reducible apply keeps_getWorld hR
    | with_reducible apply keeps_index hR
    | with_reducible apply keeps_fail hR
    | with_reducible apply keeps_pure hR
    | with_reducible apply baseStep_setInstanceID
    | with_reducible apply baseStep_setId
    | with_reducible apply baseStep_remote
    | with_reducible apply baseStep_kpCall
    | with_reducible apply keeps_bind hR
    | split
    | intro _

theorem update_baseStep (env : Env) : Op.Keeps BaseStep (resourceIBMKmsKeyUpdate env) := by
  have hR := baseStep_stepRel
  unfold resourceIBMKmsKeyUpdate
  dsimp only []
  repeat first
    | with_reducible apply read_baseStep
    | with_reducible apply keeps_getWorld hR
    | with_reducible apply keeps_pure hR
    | with_reducible apply baseStep_modifyD
    | with_reducible apply keeps_bind hR
    | split
    | intro _

set_option maxRecDepth 8000 in
theorem delete_baseStep (env : Env) : Op.Keeps BaseStep (resourceIBMKmsKeyDelete env) := by
  have hR := baseStep_stepRel
  unfold resourceIBMKmsKeyDelete
  dsimp only []
  repeat first
    | with_reducible apply resolve_baseStep
    | with_reducible apply keeps_acquire hR
    | with_reducible apply keeps_getWorld hR
    | with_reducible apply keeps_index hR
    | with_reducible apply keeps_fail hR
    | with_reducible apply keeps_pure hR
    | with_reducible apply baseStep_setInstanceID
    | with_reducible apply baseStep_setId
    | with_reducible apply baseStep_kpCall
    | with_reducible apply keeps_bind hR
    | split
    | intro _

set_option maxRecDepth 8000 in
theorem exists_baseStep (env : Env) : Op.Keeps BaseStep (resourceIBMKmsKeyExists env) := by
  have hR := baseStep_stepRel
  unfold resourceIBMKmsKeyExists
  dsimp only []
  repeat first
    | with_reducible apply resolve_baseStep
    | with_reducible apply keeps_acquire hR
    | with_reducible apply keeps_getWorld hR
    | with_reducible apply keeps_index hR
    | with_reducible apply keeps_fail hR
    | with_reducible apply keeps_pure hR
    | with_reducible apply keeps_assertionPanic hR
    | with_reducible apply baseStep_setInstanceID
    | with_reducible apply baseStep_kpCall
    | with_reducible apply keeps_bind hR
    | split
    | intro _

theorem entryPoint_baseStep (env : Env) (e : EntryPoint) (w : World) :
    BaseStep w (e.run env w) := by
  cases e
  · exact (create_baseStep env).run w
  · exact (read_baseStep env).run w
  · exact (update_baseStep env).run w
  · exact (delete_baseStep env).run w
  · exact (exists_baseStep env).run w

theorem runAll_baseStep (steps : List (EntryPoint × Env)) (w : World) :
    BaseStep w (runAll steps w) := by
  induction steps generalizing w with
  | nil => exact baseStep_stepRel.refl w
  | cons s rest ih =>
    obtain ⟨e, env⟩ := s
    exact baseStep_stepRel.trans _ _ _ (entryPoint_baseStep env e w) (ih (e.run env w))

/-! ## Runs of Read used by Create and Update -/

theorem read_id (env : Env) (w : World) : (resourceIBMKmsKeyRead env w).2.d.Id = w.d.Id :=
  ((read_readOnly env).run w).1

theorem read_force_delete (env : Env) (w : World) :
    (resourceIBMKmsKeyRead env w).2.d.force_delete = w.d.force_delete :=
  ((read_readOnly env).run w).2.1

theorem read_calls (env : Env) (w : World) :
    ∃ cs, (resourceIBMKmsKeyRead env w).2.calls = w.calls ++ cs ∧
      ∀ c ∈ cs, c.isCreate = false ∧ c.isDelete = false :=
  ((read_readOnly env).run w).2.2

theorem filter_isCreate_of_readOnly (w w1 : World) (h : ReadOnly w w1) :
    w1.calls.filter Call.isCreate = w.calls.filter Call.isCreate := by
  obtain ⟨_, _, cs, hcs, hno⟩ := h
  rw [hcs, List.filter_append]
  have : cs.filter Call.isCreate = [] := by
    rw [List.filter_eq_nil_iff]
    intro c hc
    simp [(hno c hc).1]
  rw [this, List.append_nil]

theorem update_eq_read (env : Env) (w : World) :
    resourceIBMKmsKeyUpdate env w = resourceIBMKmsKeyRead env w := by
  simp only [resourceIBMKmsKeyUpdate, bind_run, Op.bind, getWorld]
  split <;> rfl

/-! ## Runs of Create around the resolution block -/

theorem create_of_resolve_ok (env : Env) (w w1 : World) (instanceCRN ty : String)
    (hk : env.keyManagementAPI = none) (hh : env.HpcsEndpointAPI = none)
    (hr : env.ResourceControllerAPIV2 = none)
    (hinst : env.GetInstance w.d.instance_id = .ok instanceCRN)
    (hres : resolveEndpoint env (stringsSplit instanceCRN ':') w.d.endpoint_type w.d.instance_id
      (w.withCall (.GetInstance w.d.instance_id)) = (.ok ty, w1)) :
    resourceIBMKmsKeyCreate env w =
      match creationAnswer env (w1.withInstanceID w.d.instance_id).kpAPI w1.d with
      | .error err =>
        (.err (.plain (creationErrorText w1.d ++ err.Error)),
          (w1.withInstanceID w.d.instance_id).withCall
            (creationCall (w1.withInstanceID w.d.instance_id).kpAPI w1.d))
      | .ok key =>
        resourceIBMKmsKeyRead env
          (((w1.withInstanceID w.d.instance_id).withCall
            (creationCall (w1.withInstanceID w.d.instance_id).kpAPI w1.d)).withId key.CRN) := by
  simp only [World.withCall] at hres
  cases hs : w1.d.standard_key <;> by_cases hp : w1.d.payload = "" <;>
  simp only [creationAnswer, creationCall, creationErrorText, hs, hp, if_true, if_false,
    Bool.false_eq_true, ne_eq, not_true_eq_false, not_false_eq_true] <;>
  split <;>
  rename_i hans <;>
  simp only [World.withInstanceID] at hans <;>
  simp [resourceIBMKmsKeyCreate, bind_run, Op.bind, acquire, hk, hh, hr, getWorld, remote, hinst,
    hres, setInstanceID, modifyClient, kpCall, hs, hp, hans, fail, errorf, setId, modifyD,
    World.withCall, World.withInstanceID, World.withId]

/-! ## Read, Delete and Exists around the resolution block -/

theorem resolve_instanceID (env : Env) (crnData : List String) (et inst : String) (w : World) :
    (resolveEndpoint env crnData et inst w).2.kpAPI.Config.InstanceID
      = w.kpAPI.Config.InstanceID := by
  cases h4 : crnData[4]? with
  | none => rw [resolve_short _ _ _ _ _ h4]
  | some seg4 =>
    by_cases hhs : seg4 = "hs-crypto"
    · subst hhs
      rw [resolve_hs _ _ _ _ _ h4]
      split
      · rfl
      · split <;> rfl
    · by_cases hkms : seg4 = "kms"
      · subst hkms
        rw [resolve_kms _ _ _ _ _ h4]
        rfl
      · rw [resolve_other _ _ _ _ _ _ h4 hhs hkms]

theorem read_around (env : Env) (w : World)
    (hk : env.keyManagementAPI = none) (hh : env.HpcsEndpointAPI = none)
    (hlen : 5 ≤ crnLength w.d.Id) :
    AroundResolution env (stringsSplit w.d.Id ':') (crnSegment w.d.Id 3)
      (crnSegment w.d.Id (crnLength w.d.Id - 3)) (crnSegment w.d.Id (crnLength w.d.Id - 1))
      w (resourceIBMKmsKeyRead env w) := by
  have h3 := segment_some w.d.Id 3 (by omega)
  have hi := segment_some w.d.Id (crnLength w.d.Id - 3) (by omega)
  have hkid := segment_some w.d.Id (crnLength w.d.Id - 1) (by omega)
  constructor
  · intro ty w1 hres
    obtain ⟨hc, hkp⟩ := read_of_resolve_ok env w w1 _ _ _ ty hk hh h3 hi hkid hres
    refine ⟨.GetKey (w1.withInstanceID _).kpAPI _, rfl, ⟨rfl, rfl⟩, hc, ?_, ?_, ?_⟩ <;>
      rw [hkp] <;> rfl
  · intro e w1 hres
    exact read_of_resolve_err env w w1 _ _ _ e hk hh h3 hi hkid hres

theorem delete_around (env : Env) (w : World)
    (hk : env.keyManagementAPI = none) (hh : env.HpcsEndpointAPI = none)
    (hlen : 5 ≤ crnLength w.d.Id) :
    AroundResolution env (stringsSplit w.d.Id ':') (crnSegment w.d.Id 3)
      (crnSegment w.d.Id (crnLength w.d.Id - 3)) (crnSegment w.d.Id (crnLength w.d.Id - 1))
      (w.withInstanceID (crnSegment w.d.Id (crnLength w.d.Id - 3)))
      (resourceIBMKmsKeyDelete env w) := by
  have h3 := segment_some w.d.Id 3 (by omega)
  have hi := segment_some w.d.Id (crnLength w.d.Id - 3) (by omega)
  have hkid := segment_some w.d.Id (crnLength w.d.Id - 1) (by omega)
  constructor
  · intro ty w1 hres
    have hinst : w1.kpAPI.Config.InstanceID = crnSegment w.d.Id (crnLength w.d.Id - 3) := by
      have := resolve_instanceID env (stringsSplit w.d.Id ':') (crnSegment w.d.Id 3)
        (crnSegment w.d.Id (crnLength w.d.Id - 3))
        (w.withInstanceID (crnSegment w.d.Id (crnLength w.d.Id - 3)))
      rw [hres] at this
      exact this
    rw [delete_of_resolve_ok env w w1 _ _ _ ty hk hh h3 hi hkid hres]
    refine ⟨.DeleteKey w1.kpAPI _ w1.d.force_delete, rfl, ⟨hinst, rfl⟩, ?_, ?_, ?_, ?_⟩ <;>
      split <;> first | rfl | exact hinst
  · intro e w1 hres
    exact delete_of_resolve_err env w w1 _ _ _ e hk hh h3 hi hkid hres

theorem exists_around (env : Env) (w : World)
    (hk : env.keyManagementAPI = none) (hh : env.HpcsEndpointAPI = none)
    (hlen : 5 ≤ crnLength w.d.Id) :
    AroundResolution env (stringsSplit w.d.Id ':') (crnSegment w.d.Id 3)
      (crnSegment w.d.Id (crnLength w.d.Id - 3)) (crnSegment w.d.Id (crnLength w.d.Id - 1))
      (w.withInstanceID (crnSegment w.d.Id (crnLength w.d.Id - 3)))
      (resourceIBMKmsKeyExists env w) := by
  have h3 := segment_some w.d.Id 3 (by omega)
  have hi := segment_some w.d.Id (crnLength w.d.Id - 3) (by omega)
  have hkid := segment_some w.d.Id (crnLength w.d.Id - 1) (by omega)
  constructor
  · intro ty w1 hres
    have hinst : w1.kpAPI.Config.InstanceID = crnSegment w.d.Id (crnLength w.d.Id - 3) := by
      have := resolve_instanceID env (stringsSplit w.d.Id ':') (crnSegment w.d.Id 3)
        (crnSegment w.d.Id (crnLength w.d.Id - 3))
        (w.withInstanceID (crnSegment w.d.Id (crnLength w.d.Id - 3)))
      rw [hres] at this
      exact this
    rw [exists_of_resolve_ok env w w1 _ _ _ ty hk hh h3 hi hkid hres]
    refine ⟨.GetKey w1.kpAPI _, rfl, ⟨hinst, rfl⟩, ?_, ?_, ?_, ?_⟩ <;>
      split <;> first | rfl | exact hinst
  · intro e w1 hres
    exact exists_of_resolve_err env w w1 _ _ _ e hk hh h3 hi hkid hres

theorem around_hpcs {α : Type} (env : Env) (crnData : List String) (et inst keyid : String)
    (w0 : World) (r : Outcome α × World)
    (ha : AroundResolution env crnData et inst keyid w0 r)
    (h4 : crnData[4]? = some "hs-crypto") :
    HpcsBranchTaken env et inst w0 r.2 ∧
      (∀ resp u, env.GetAPIEndpoint inst = .ok resp →
        env.urlParse (hpcsEndpointURL et resp) = .ok u →
        ∃ c, KeyOpFor inst keyid c ∧ r.2.calls = w0.calls ++ [.GetAPIEndpoint inst, c] ∧
          r.2.kpAPI.Config.InstanceID = inst) ∧
      (∀ resp e, env.GetAPIEndpoint inst = .ok resp →
        env.urlParse (hpcsEndpointURL et resp) = .error e → r.1 = .err urlParseError) := by
  have hres := resolve_hs env crnData et inst w0 h4
  cases hl : env.GetAPIEndpoint inst with
  | error err =>
    rw [hl] at hres
    have hr := ha.err _ _ hres
    refine ⟨⟨⟨[], by rw [hr]; rfl⟩, ?_⟩, ?_, ?_⟩ <;> intro resp _ h <;>
      (try rw [hl] at h) <;> cases h
  | ok resp =>
    rw [hl] at hres
    cases hu : env.urlParse (hpcsEndpointURL et resp) with
    | error e =>
      simp only [hu] at hres
      have hr := ha.err _ _ hres
      refine ⟨⟨⟨[], by rw [hr]; rfl⟩, ?_⟩, ?_, ?_⟩
      · intro resp1 u1 h1 h2
        try rw [hl] at h1
        cases h1
        rw [hu] at h2
        cases h2
      · intro resp1 u1 h1 h2
        try rw [hl] at h1
        cases h1
        rw [hu] at h2
        cases h2
      · intro resp1 e1 _ _
        rw [hr]
    | ok u =>
      simp only [hu] at hres
      obtain ⟨c, _, hc, hcalls, hurl, _, hinst⟩ := ha.ok _ _ hres
      refine ⟨⟨⟨[c], by rw [hcalls]; simp [World.withCall, World.withURL]⟩, ?_⟩, ?_, ?_⟩
      · intro resp1 u1 h1 h2
        try rw [hl] at h1
        cases h1
        rw [hu] at h2
        cases h2
        rw [hurl]
        rfl
      · intro resp1 u1 _ _
        exact ⟨c, hc, by rw [hcalls]; simp [World.withCall, World.withURL], hinst⟩
      · intro resp1 e1 h1 h2
        try rw [hl] at h1
        cases h1
        rw [hu] at h2
        cases h2

theorem around_kms {α : Type} (env : Env) (crnData : List String) (et inst keyid : String)
    (w0 : World) (r : Outcome α × World)
    (ha : AroundResolution env crnData et inst keyid w0 r)
    (h4 : crnData[4]? = some "kms") :
    KmsBranchTaken w0 r.2 ∧
      (∃ c, KeyOpFor inst keyid c ∧ r.2.calls = w0.calls ++ [c]) ∧
      r.2.kpAPI.Config.InstanceID = inst ∧
      r.2.kpAPI.Config.BaseURL = kmsBaseURL et w0.kpAPI.Config.BaseURL := by
  obtain ⟨c, hk, hc, hcalls, hurl, hbase, hinst⟩ := ha.ok _ _ (resolve_kms env crnData et inst w0 h4)
  exact ⟨⟨⟨c, hk, hcalls⟩, hurl⟩, ⟨c, hc, hcalls⟩, hinst, hbase⟩

theorem around_other {α : Type} (env : Env) (crnData : List String)
    (et inst keyid seg4 : String) (w0 : World) (r : Outcome α × World)
    (ha : AroundResolution env crnData et inst keyid w0 r)
    (h4 : crnData[4]? = some seg4) (hhs : seg4 ≠ "hs-crypto") (hkms : seg4 ≠ "kms") :
    r = (.err unsupportedService, w0) :=
  ha.err _ _ (resolve_other env crnData et inst seg4 w0 h4 hhs hkms)

theorem kmsBaseURL_idem (et base : String) :
    kmsBaseURL et (kmsBaseURL et base) = kmsBaseURL et base := by
  by_cases h : et = "private" ∧ stringsHasPrefix base "private" = false
  · have h1 : kmsBaseURL et base = "private." ++ base := by simp [kmsBaseURL, h]
    rw [h1]
    simp [kmsBaseURL, stringsHasPrefix_private_dot]
  · have h1 : kmsBaseURL et base = base := by
      unfold kmsBaseURL
      rw [if_neg h]
    rw [h1, h1]

theorem creationCall_isCreate (k : Client) (d : ResourceData) :
    (creationCall k d).isCreate = true := by
  unfold creationCall
  split <;> split <;> rfl

theorem creationCall_client (k : Client) (d : ResourceData) :
    (creationCall k d).client? = some k := by
  unfold creationCall
  split <;> split <;> rfl

theorem create_of_resolve_err (env : Env) (w w1 : World) (instanceCRN : String) (e : GoError)
    (hk : env.keyManagementAPI = none) (hh : env.HpcsEndpointAPI = none)
    (hr : env.ResourceControllerAPIV2 = none)
    (hinst : env.GetInstance w.d.instance_id = .ok instanceCRN)
    (hres : resolveEndpoint env (stringsSplit instanceCRN ':') w.d.endpoint_type w.d.instance_id
      (w.withCall (.GetInstance w.d.instance_id)) = (.err e, w1)) :
    resourceIBMKmsKeyCreate env w = (.err e, w1) := by
  simp only [World.withCall] at hres
  simp [resourceIBMKmsKeyCreate, bind_run, Op.bind, acquire, hk, hh, hr, getWorld, remote, hinst,
    hres]

theorem create_trace (env : Env) (w w1 : World) (instanceCRN ty : String)
    (hk : env.keyManagementAPI = none) (hh : env.HpcsEndpointAPI = none)
    (hr : env.ResourceControllerAPIV2 = none)
    (hinst : env.GetInstance w.d.instance_id = .ok instanceCRN)
    (hres : resolveEndpoint env (stringsSplit instanceCRN ':') w.d.endpoint_type w.d.instance_id
      (w.withCall (.GetInstance w.d.instance_id)) = (.ok ty, w1)) :
    (resourceIBMKmsKeyCreate env w).2.calls.filter Call.isCreate
        = w.calls.filter Call.isCreate
          ++ [creationCall (w1.withInstanceID w.d.instance_id).kpAPI w.d] ∧
      (∀ key, creationAnswer env (w1.withInstanceID w.d.instance_id).kpAPI w.d = .ok key →
        (resourceIBMKmsKeyCreate env w).2.d.Id = key.CRN) ∧
      (∀ e, creationAnswer env (w1.withInstanceID w.d.instance_id).kpAPI w.d = .error e →
        (resourceIBMKmsKeyCreate env w).1 = .err (.plain (creationErrorText w.d ++ e.Error)) ∧
          (resourceIBMKmsKeyCreate env w).2.d.Id = w.d.Id) := by
  have hd : w1.d = w.d := by
    have := resolve_d env (stringsSplit instanceCRN ':') w.d.endpoint_type w.d.instance_id
      (w.withCall (.GetInstance w.d.instance_id))
    rw [hres] at this
    exact this
  have hcs : w1.calls.filter Call.isCreate = w.calls.filter Call.isCreate := by
    have h1 := (resolve_readOnly env (stringsSplit instanceCRN ':') w.d.endpoint_type
      w.d.instance_id).run (w.withCall (.GetInstance w.d.instance_id))
    rw [hres] at h1
    rw [filter_isCreate_of_readOnly _ _ h1]
    simp [World.withCall, Call.isCreate]
  have hrun := create_of_resolve_ok env w w1 instanceCRN ty hk hh hr hinst hres
  rw [hd] at hrun
  cases hans : creationAnswer env (w1.withInstanceID w.d.instance_id).kpAPI w.d with
  | error e =>
    rw [hans] at hrun
    rw [hrun]
    refine ⟨?_, ?_, ?_⟩
    · simp [World.withCall, World.withInstanceID, List.filter_append, hcs, creationCall_isCreate]
    · intro key h
      cases h
    · intro e1 h
      cases h
      exact ⟨rfl, congrArg ResourceData.Id hd⟩
  | ok key =>
    rw [hans] at hrun
    rw [hrun]
    refine ⟨?_, ?_, ?_⟩
    · rw [filter_isCreate_of_readOnly _ _ ((read_readOnly env).run _)]
      simp [World.withCall, World.withInstanceID, World.withId, List.filter_append, hcs,
        creationCall_isCreate]
    · intro key1 h
      cases h
      rw [read_id]
      rfl
    · intro e1 h
      cases h

/-! ## Endpoint resolution (C1, C3, C4) -/

/-- C1: for an identifier with at least five colon-separated segments, Read, Delete and
Exists take the HPCS branch when segment 4 is `hs-crypto` (the endpoint lookup is the
first call and the parsed URL is set on the client), take the KMS branch when it is
`kms` (the only call is the key operation, no lookup, URL untouched), and for any
other segment 4 fail with the unsupported-service error without issuing any call. -/
theorem resolution_branch_by_service_segment (env : Env) (w : World)
    (hk : env.keyManagementAPI = none) (hh : env.HpcsEndpointAPI = none)
    (hlen : 5 ≤ crnLength w.d.Id) :
    (crnSegment w.d.Id 4 = "hs-crypto" →
      HpcsBranchTaken env (crnSegment w.d.Id 3) (crnSegment w.d.Id (crnLength w.d.Id - 3)) w
          (resourceIBMKmsKeyRead env w).2 ∧
        HpcsBranchTaken env (crnSegment w.d.Id 3) (crnSegment w.d.Id (crnLength w.d.Id - 3)) w
          (resourceIBMKmsKeyDelete env w).2 ∧
        HpcsBranchTaken env (crnSegment w.d.Id 3) (crnSegment w.d.Id (crnLength w.d.Id - 3)) w
          (resourceIBMKmsKeyExists env w).2) ∧
    (crnSegment w.d.Id 4 = "kms" →
      KmsBranchTaken w (resourceIBMKmsKeyRead env w).2 ∧
        KmsBranchTaken w (resourceIBMKmsKeyDelete env w).2 ∧
        KmsBranchTaken w (resourceIBMKmsKeyExists env w).2) ∧
    (crnSegment w.d.Id 4 ≠ "hs-crypto" → crnSegment w.d.Id 4 ≠ "kms" →
      ((resourceIBMKmsKeyRead env w).1 = .err unsupportedService ∧
          (resourceIBMKmsKeyRead env w).2.calls = w.calls) ∧
        ((resourceIBMKmsKeyDelete env w).1 = .err unsupportedService ∧
          (resourceIBMKmsKeyDelete env w).2.calls = w.calls) ∧
        ((resourceIBMKmsKeyExists env w).1 = .err unsupportedService ∧
          (resourceIBMKmsKeyExists env w).2.calls = w.calls)) := by
  have h4 := segment_some w.d.Id 4 (by omega)
  have hR := read_around env w hk hh hlen
  have hD := delete_around env w hk hh hlen
  have hE := exists_around env w hk hh hlen
  refine ⟨?_, ?_, ?_⟩
  · intro hs
    rw [hs] at h4
    exact ⟨(around_hpcs _ _ _ _ _ _ _ hR h4).1, (around_hpcs _ _ _ _ _ _ _ hD h4).1,
      (around_hpcs _ _ _ _ _ _ _ hE h4).1⟩
  · intro hs
    rw [hs] at h4
    exact ⟨(around_kms _ _ _ _ _ _ _ hR h4).1, (around_kms _ _ _ _ _ _ _ hD h4).1,
      (around_kms _ _ _ _ _ _ _ hE h4).1⟩
  · intro hhs hkms
    rw [around_other _ _ _ _ _ _ _ _ hR h4 hhs hkms, around_other _ _ _ _ _ _ _ _ hD h4 hhs hkms,
      around_other _ _ _ _ _ _ _ _ hE h4 hhs hkms]
    exact ⟨⟨rfl, rfl⟩, ⟨rfl, rfl⟩, ⟨rfl, rfl⟩⟩

/-- Witness of C1: the sample Key Protect key has ten segments with `kms` at index 4, and
Read takes the KMS branch on it. -/
theorem resolution_branch_by_service_segment_witness :
    5 ≤ crnLength sampleKmsWorld.d.Id ∧ crnSegment sampleKmsWorld.d.Id 4 = "kms" ∧
      KmsBranchTaken sampleKmsWorld (resourceIBMKmsKeyRead sampleEnv sampleKmsWorld).2 :=
  ⟨by decide, by decide,
    ((resolution_branch_by_service_segment sampleEnv sampleKmsWorld rfl rfl (by decide)).2.1
      (by decide)).1⟩

/-- Counterexample to C3 as stated: with endpoint type `private` (segment 3) on the KMS
branch, the base URL `privatelink.kms.cloud.ibm.com` is not prefixed with `private.`,
yet Read leaves it as it is instead of putting `private.` in front. -/
theorem kms_private_prefix_counterexample :
    crnSegment samplePrivatelinkWorld.d.Id 4 = "kms" ∧
      crnSegment samplePrivatelinkWorld.d.Id 3 = "private" ∧
      stringsHasPrefix samplePrivatelinkWorld.kpAPI.Config.BaseURL "private." = false ∧
      (resourceIBMKmsKeyRead sampleEnv samplePrivatelinkWorld).2.kpAPI.Config.BaseURL
        = "privatelink.kms.cloud.ibm.com" ∧
      (resourceIBMKmsKeyRead sampleEnv samplePrivatelinkWorld).2.kpAPI.Config.BaseURL
        ≠ "private." ++ samplePrivatelinkWorld.kpAPI.Config.BaseURL := by
  decide

/-- C3 (amended): on the KMS branch with endpoint type `private` (segment 3 of the
identifier in Read, Delete and Exists), a base URL that does not start with `private`
becomes `private.` followed by the original, and a base URL that starts with `private`
(in particular one prefixed with `private.`) is left unchanged; the resolution block
itself, which Create runs on the field `endpoint_type`, does the same. -/
theorem kms_private_prefix_guard (env : Env) (w : World)
    (hk : env.keyManagementAPI = none) (hh : env.HpcsEndpointAPI = none)
    (hlen : 5 ≤ crnLength w.d.Id)
    (h4 : crnSegment w.d.Id 4 = "kms") (h3 : crnSegment w.d.Id 3 = "private") :
    (stringsHasPrefix w.kpAPI.Config.BaseURL "private" = false →
      (resourceIBMKmsKeyRead env w).2.kpAPI.Config.BaseURL
          = "private." ++ w.kpAPI.Config.BaseURL ∧
        (resourceIBMKmsKeyDelete env w).2.kpAPI.Config.BaseURL
          = "private." ++ w.kpAPI.Config.BaseURL ∧
        (resourceIBMKmsKeyExists env w).2.kpAPI.Config.BaseURL
          = "private." ++ w.kpAPI.Config.BaseURL) ∧
    (stringsHasPrefix w.kpAPI.Config.BaseURL "private" = true →
      (resourceIBMKmsKeyRead env w).2.kpAPI.Config.BaseURL = w.kpAPI.Config.BaseURL ∧
        (resourceIBMKmsKeyDelete env w).2.kpAPI.Config.BaseURL = w.kpAPI.Config.BaseURL ∧
        (resourceIBMKmsKeyExists env w).2.kpAPI.Config.BaseURL = w.kpAPI.Config.BaseURL) ∧
    (stringsHasPrefix w.kpAPI.Config.BaseURL "private." = true →
      (resourceIBMKmsKeyRead env w).2.kpAPI.Config.BaseURL = w.kpAPI.Config.BaseURL ∧
        (resourceIBMKmsKeyDelete env w).2.kpAPI.Config.BaseURL = w.kpAPI.Config.BaseURL ∧
        (resourceIBMKmsKeyExists env w).2.kpAPI.Config.BaseURL = w.kpAPI.Config.BaseURL) ∧
    (∀ (env0 : Env) (crnData : List String) (inst : String) (w0 : World),
      crnData[4]? = some "kms" →
      (resolveEndpoint env0 crnData "private" inst w0).2.kpAPI.Config.BaseURL
        = if stringsHasPrefix w0.kpAPI.Config.BaseURL "private" = false
          then "private." ++ w0.kpAPI.Config.BaseURL else w0.kpAPI.Config.BaseURL) := by
  have hseg := segment_some w.d.Id 4 (by omega)
  rw [h4] at hseg
  have hR := (around_kms _ _ _ _ _ _ _ (read_around env w hk hh hlen) hseg).2.2.2
  have hD := (around_kms _ _ _ _ _ _ _ (delete_around env w hk hh hlen) hseg).2.2.2
  have hE := (around_kms _ _ _ _ _ _ _ (exists_around env w hk hh hlen) hseg).2.2.2
  rw [h3] at hR hD hE
  have hD1 : (resourceIBMKmsKeyDelete env w).2.kpAPI.Config.BaseURL
      = kmsBaseURL "private" w.kpAPI.Config.BaseURL := hD
  have hE1 : (resourceIBMKmsKeyExists env w).2.kpAPI.Config.BaseURL
      = kmsBaseURL "private" w.kpAPI.Config.BaseURL := hE
  have hno : ∀ b : String, stringsHasPrefix b "private" = false →
      kmsBaseURL "private" b = "private." ++ b := by
    intro b hb
    simp [kmsBaseURL, hb]
  have hyes : ∀ b : String, stringsHasPrefix b "private" = true → kmsBaseURL "private" b = b := by
    intro b hb
    simp [kmsBaseURL, hb]
  have hdot : ∀ b : String, stringsHasPrefix b "private." = true →
      stringsHasPrefix b "private" = true := by
    intro b hb
    exact stringsHasPrefix_trans b "private." "private" hb (by decide)
  rw [hR, hD1, hE1]
  refine ⟨fun h => ?_, fun h => ?_, fun h => ?_, ?_⟩
  · rw [hno _ h]
    exact ⟨rfl, rfl, rfl⟩
  · rw [hyes _ h]
    exact ⟨rfl, rfl, rfl⟩
  · rw [hyes _ (hdot _ h)]
    exact ⟨rfl, rfl, rfl⟩
  · intro env0 crnData inst w0 hkms
    rw [resolve_kms _ _ _ _ _ hkms]
    by_cases hb : stringsHasPrefix w0.kpAPI.Config.BaseURL "private" = false
    · simp [World.withBaseURL, kmsBaseURL, hb]
    · simp [World.withBaseURL, kmsBaseURL, hb]

/-- Witness of C3 (amended): Read on the sample Key Protect key, whose segment 3 is
`private`, turns `us-south.kms.cloud.ibm.com` into `private.us-south.kms.cloud.ibm.com`. -/
theorem kms_private_prefix_guard_witness :
    stringsHasPrefix sampleKmsWorld.kpAPI.Config.BaseURL "private" = false ∧
      (resourceIBMKmsKeyRead sampleEnv sampleKmsWorld).2.kpAPI.Config.BaseURL
        = "private." ++ sampleKmsWorld.kpAPI.Config.BaseURL :=
  ⟨by decide,
    ((kms_private_prefix_guard sampleEnv sampleKmsWorld rfl rfl (by decide) (by decide)
      (by decide)).1 (by decide)).1⟩

/-- C4: on the KMS branch, for every base URL and every endpoint type, resolving twice
leaves the base URL that resolving once leaves; and whatever entry points are run one
after the other on one client, its base URL is the original one or the original one
with a single `private.` in front (the latter only when the original did not start
with `private`), so no `private.private.` prefix is ever produced. -/
theorem kms_resolution_idempotent (env1 env2 : Env) (crn1 crn2 : List String)
    (et inst1 inst2 : String) (w : World)
    (h1 : crn1[4]? = some "kms") (h2 : crn2[4]? = some "kms") :
    (resolveEndpoint env2 crn2 et inst2
        (resolveEndpoint env1 crn1 et inst1 w).2).2.kpAPI.Config.BaseURL
      = (resolveEndpoint env1 crn1 et inst1 w).2.kpAPI.Config.BaseURL ∧
    ∀ steps : List (EntryPoint × Env),
      (runAll steps w).kpAPI.Config.BaseURL = w.kpAPI.Config.BaseURL ∨
        (stringsHasPrefix w.kpAPI.Config.BaseURL "private" = false ∧
          (runAll steps w).kpAPI.Config.BaseURL = "private." ++ w.kpAPI.Config.BaseURL) := by
  refine ⟨?_, fun steps => runAll_baseStep steps w⟩
  rw [resolve_kms _ _ _ _ _ h1, resolve_kms _ _ _ _ _ h2]
  simp [World.withBaseURL, kmsBaseURL_idem]

/-- Witness of C4: on the sample Key Protect client, resolving twice for endpoint type
`private` gives `private.us-south.kms.cloud.ibm.com`, as resolving once does. -/
theorem kms_resolution_idempotent_witness :
    (stringsSplit sampleKmsWorld.d.Id ':')[4]? = some "kms" ∧
      (resolveEndpoint sampleEnv (stringsSplit sampleKmsWorld.d.Id ':') "private" "inst-1"
          (resolveEndpoint sampleEnv (stringsSplit sampleKmsWorld.d.Id ':') "private" "inst-1"
            sampleKmsWorld).2).2.kpAPI.Config.BaseURL
        = (resolveEndpoint sampleEnv (stringsSplit sampleKmsWorld.d.Id ':') "private" "inst-1"
            sampleKmsWorld).2.kpAPI.Config.BaseURL :=
  ⟨by decide,
    (kms_resolution_idempotent sampleEnv sampleEnv (stringsSplit sampleKmsWorld.d.Id ':')
      (stringsSplit sampleKmsWorld.d.Id ':') "private" "inst-1" "inst-1" sampleKmsWorld
      (by decide) (by decide)).1⟩

/-! ## Exists, Create, Read, Delete, Update (C2, C5, C6, C7, C8) -/

/-- C2: once the endpoint is resolved (the resolution block ends without error in world
`w1`), Exists classifies the answer of GetKey: an SDK error with status code 404
gives `(false, nil)`, an SDK error with any other status code gives `(false, err)`
with that same error, and a fetched key gives `(true, nil)`. -/
theorem exists_classifies_getKey (env : Env) (w w1 : World) (ty : String)
    (hk : env.keyManagementAPI = none) (hh : env.HpcsEndpointAPI = none)
    (hlen : 5 ≤ crnLength w.d.Id)
    (hres : resolveEndpoint env (stringsSplit w.d.Id ':') (crnSegment w.d.Id 3)
      (crnSegment w.d.Id (crnLength w.d.Id - 3))
      (w.withInstanceID (crnSegment w.d.Id (crnLength w.d.Id - 3))) = (.ok ty, w1)) :
    (∀ t, env.GetKey w1.kpAPI (crnSegment w.d.Id (crnLength w.d.Id - 1)) = .error (.kp 404 t) →
      (resourceIBMKmsKeyExists env w).1 = .ok false) ∧
    (∀ s t, s ≠ 404 →
      env.GetKey w1.kpAPI (crnSegment w.d.Id (crnLength w.d.Id - 1)) = .error (.kp s t) →
      (resourceIBMKmsKeyExists env w).1 = .err (.kp s t)) ∧
    (∀ key, env.GetKey w1.kpAPI (crnSegment w.d.Id (crnLength w.d.Id - 1)) = .ok key →
      (resourceIBMKmsKeyExists env w).1 = .ok true) ∧
    (resourceIBMKmsKeyExists env w).2
      = w1.withCall (.GetKey w1.kpAPI (crnSegment w.d.Id (crnLength w.d.Id - 1))) := by
  have h3 := segment_some w.d.Id 3 (by omega)
  have hi := segment_some w.d.Id (crnLength w.d.Id - 3) (by omega)
  have hkid := segment_some w.d.Id (crnLength w.d.Id - 1) (by omega)
  rw [exists_of_resolve_ok env w w1 _ _ _ ty hk hh h3 hi hkid hres]
  refine ⟨?_, ?_, ?_, ?_⟩
  · intro t hg
    rw [hg]
    rfl
  · intro s t hs hg
    rw [hg]
    simp [hs]
  · intro key hg
    rw [hg]
  · split <;> rfl

/-- Witness of C2: the sample service answers 404 for the key `missing`, and Exists
returns `(false, nil)`. -/
theorem exists_classifies_getKey_witness :
    5 ≤ crnLength sampleMissingWorld.d.Id ∧
      (resourceIBMKmsKeyExists sampleEnv sampleMissingWorld).1 = .ok false :=
  ⟨by decide,
    (exists_classifies_getKey sampleEnv sampleMissingWorld
      (sampleMissingWorld.withInstanceID "inst-1") "kms" rfl rfl (by decide) (by decide)).1
      "key not found" rfl⟩

/-- C5: once the endpoint is resolved (the resolution block ends without error in world
`w1`), Create issues exactly one key-creation call, chosen by `standard_key` and the
presence of a payload, with `key_name`, the payload, `encrypted_nonce` and
`iv_value` forwarded unchanged; when that call answers a key, the local identifier is
the CRN of that key. -/
theorem create_issues_selected_call (env : Env) (w w1 : World) (instanceCRN ty : String)
    (hk : env.keyManagementAPI = none) (hh : env.HpcsEndpointAPI = none)
    (hr : env.ResourceControllerAPIV2 = none)
    (hinst : env.GetInstance w.d.instance_id = .ok instanceCRN)
    (hres : resolveEndpoint env (stringsSplit instanceCRN ':') w.d.endpoint_type w.d.instance_id
      (w.withCall (.GetInstance w.d.instance_id)) = (.ok ty, w1)) :
    (w.d.standard_key = true → w.d.payload = "" →
      (resourceIBMKmsKeyCreate env w).2.calls.filter Call.isCreate
          = w.calls.filter Call.isCreate
            ++ [.CreateStandardKey (w1.withInstanceID w.d.instance_id).kpAPI w.d.key_name] ∧
        ∀ key, env.CreateStandardKey (w1.withInstanceID w.d.instance_id).kpAPI w.d.key_name
            = .ok key →
          (resourceIBMKmsKeyCreate env w).2.d.Id = key.CRN) ∧
    (w.d.standard_key = true → w.d.payload ≠ "" →
      (resourceIBMKmsKeyCreate env w).2.calls.filter Call.isCreate
          = w.calls.filter Call.isCreate
            ++ [.CreateImportedStandardKey (w1.withInstanceID w.d.instance_id).kpAPI
                w.d.key_name w.d.payload] ∧
        ∀ key, env.CreateImportedStandardKey (w1.withInstanceID w.d.instance_id).kpAPI
            w.d.key_name w.d.payload = .ok key →
          (resourceIBMKmsKeyCreate env w).2.d.Id = key.CRN) ∧
    (w.d.standard_key = false → w.d.payload = "" →
      (resourceIBMKmsKeyCreate env w).2.calls.filter Call.isCreate
          = w.calls.filter Call.isCreate
            ++ [.CreateRootKey (w1.withInstanceID w.d.instance_id).kpAPI w.d.key_name] ∧
        ∀ key, env.CreateRootKey (w1.withInstanceID w.d.instance_id).kpAPI w.d.key_name
            = .ok key →
          (resourceIBMKmsKeyCreate env w).2.d.Id = key.CRN) ∧
    (w.d.standard_key = false → w.d.payload ≠ "" →
      (resourceIBMKmsKeyCreate env w).2.calls.filter Call.isCreate
          = w.calls.filter Call.isCreate
            ++ [.CreateImportedRootKey (w1.withInstanceID w.d.instance_id).kpAPI
                w.d.key_name w.d.payload w.d.encrypted_nonce w.d.iv_value] ∧
        ∀ key, env.CreateImportedRootKey (w1.withInstanceID w.d.instance_id).kpAPI
            w.d.key_name w.d.payload w.d.encrypted_nonce w.d.iv_value = .ok key →
          (resourceIBMKmsKeyCreate env w).2.d.Id = key.CRN) := by
  obtain ⟨hcalls, hok, _⟩ := create_trace env w w1 instanceCRN ty hk hh hr hinst hres
  refine ⟨?_, ?_, ?_, ?_⟩ <;> intro hs hp <;>
    simp only [creationCall, creationAnswer, hs, hp, if_true, if_false, Bool.false_eq_true,
      ne_eq, not_true_eq_false, not_false_eq_true] at hcalls hok <;>
    exact ⟨hcalls, hok⟩

/-- Witness of C5: on the sample record (`standard_key` false, no payload) Create issues
`CreateRootKey` with the key name and ends with the CRN of the new key as identifier. -/
theorem create_issues_selected_call_witness :
    (resourceIBMKmsKeyCreate sampleEnv sampleKmsWorld).2.calls.filter Call.isCreate
        = [.CreateRootKey
            { URL := none,
              Config := { BaseURL := "private.us-south.kms.cloud.ibm.com",
                          InstanceID := "inst-1" } }
            "my-key"] ∧
      (resourceIBMKmsKeyCreate sampleEnv sampleKmsWorld).2.d.Id
        = "crn:v1:bluemix:public:kms:us-south:a/acct:inst-1:key:key-1" :=
  have h := (create_issues_selected_call sampleEnv sampleKmsWorld
    { kpAPI := { URL := none,
                 Config := { BaseURL := "private.us-south.kms.cloud.ibm.com", InstanceID := "" } }
      d := sampleKmsWorld.d
      calls := [.GetInstance "inst-1"] }
    "crn:v1:bluemix:public:kms:us-south:a/acct:inst-1::" "kms" rfl rfl rfl rfl
    (by decide)).2.2.1 (by decide) (by decide)
  ⟨h.1, h.2 _ rfl⟩

/-- C6: when Read fetches a key with identifier `id` and CRN `c` and the controller base
URL is `base`, the field `resource_controller_url` becomes
`base + "/services/kms/" + QueryEscape(c1) + "%3A%3A"`, where `c1` is `c` without the
suffix `":key:" + id` when `c` ends with it, and `c` itself when it does not. -/
theorem read_sets_dashboard_url (env : Env) (w w1 : World) (ty base : String) (key : Key)
    (hk : env.keyManagementAPI = none) (hh : env.HpcsEndpointAPI = none)
    (hlen : 5 ≤ crnLength w.d.Id)
    (hres : resolveEndpoint env (stringsSplit w.d.Id ':') (crnSegment w.d.Id 3)
      (crnSegment w.d.Id (crnLength w.d.Id - 3)) w = (.ok ty, w1))
    (hget : env.GetKey (w1.withInstanceID (crnSegment w.d.Id (crnLength w.d.Id - 3))).kpAPI
      (crnSegment w.d.Id (crnLength w.d.Id - 1)) = .ok key)
    (hbase : env.getBaseController = .ok base) :
    (resourceIBMKmsKeyRead env w).1 = .ok () ∧
    (∀ c1, key.CRN = c1 ++ (":key:" ++ key.ID) →
      (resourceIBMKmsKeyRead env w).2.d.resource_controller_url
        = base ++ "/services/kms/" ++ env.QueryEscape c1 ++ "%3A%3A") ∧
    ((¬ ∃ c1, key.CRN = c1 ++ (":key:" ++ key.ID)) →
      (resourceIBMKmsKeyRead env w).2.d.resource_controller_url
        = base ++ "/services/kms/" ++ env.QueryEscape key.CRN ++ "%3A%3A") := by
  have h3 := segment_some w.d.Id 3 (by omega)
  have hi := segment_some w.d.Id (crnLength w.d.Id - 3) (by omega)
  have hkid := segment_some w.d.Id (crnLength w.d.Id - 1) (by omega)
  simp only [World.withInstanceID] at hget
  simp only [crnLength] at hi hkid hget hres
  have hrun : (resourceIBMKmsKeyRead env w).1 = .ok () ∧
      (resourceIBMKmsKeyRead env w).2.d.resource_controller_url
        = base ++ "/services/kms/" ++ env.QueryEscape (stringsTrimSuffix key.CRN (":key:" ++ key.ID))
          ++ "%3A%3A" := by
    simp [resourceIBMKmsKeyRead, bind_run, Op.bind, acquire, hk, hh, getWorld, index, h3, hi,
      hkid, setInstanceID, modifyClient, hres, kpCall, remote, hget, hbase, modifyD]
  refine ⟨hrun.1, ?_, ?_⟩
  · intro c1 hc
    rw [hrun.2, hc, stringsTrimSuffix_append]
  · intro hc
    rw [hrun.2, stringsTrimSuffix_of_not_suffix _ _ hc]

/-- Witness of C6: Read on the sample Key Protect key sets the dashboard URL built from
the key's CRN without `:key:key-1`. -/
theorem read_sets_dashboard_url_witness :
    (resourceIBMKmsKeyRead sampleEnv sampleKmsWorld).2.d.resource_controller_url
      = "https://cloud.ibm.com" ++ "/services/kms/"
        ++ sampleQueryEscape "crn:v1:bluemix:public:kms:us-south:a/acct:inst-1" ++ "%3A%3A" :=
  (read_sets_dashboard_url sampleEnv sampleKmsWorld
    (sampleKmsWorld.withBaseURL "private.us-south.kms.cloud.ibm.com") "kms"
    "https://cloud.ibm.com" (sampleKey "key-1" "my-key" false "" "" "")
    rfl rfl (by decide) (by decide) rfl rfl).2.1
    "crn:v1:bluemix:public:kms:us-south:a/acct:inst-1" (by decide)

/-- C7: once the endpoint is resolved (the resolution block ends without error in world
`w1`), Delete calls the remote delete for the last segment of the identifier with the
force flag equal to the local `force_delete`; when the call succeeds the local
identifier becomes the empty string and `nil` is returned, when it fails an error is
returned and the local identifier is unchanged. -/
theorem delete_forwards_force_and_clears_id (env : Env) (w w1 : World) (ty : String)
    (hk : env.keyManagementAPI = none) (hh : env.HpcsEndpointAPI = none)
    (hlen : 5 ≤ crnLength w.d.Id)
    (hres : resolveEndpoint env (stringsSplit w.d.Id ':') (crnSegment w.d.Id 3)
      (crnSegment w.d.Id (crnLength w.d.Id - 3))
      (w.withInstanceID (crnSegment w.d.Id (crnLength w.d.Id - 3))) = (.ok ty, w1)) :
    (resourceIBMKmsKeyDelete env w).2.calls
      = w1.calls ++
        [.DeleteKey w1.kpAPI (crnSegment w.d.Id (crnLength w.d.Id - 1)) w.d.force_delete] ∧
    (∀ key, env.DeleteKey w1.kpAPI (crnSegment w.d.Id (crnLength w.d.Id - 1)) w.d.force_delete
        = .ok key →
      (resourceIBMKmsKeyDelete env w).1 = .ok () ∧ (resourceIBMKmsKeyDelete env w).2.d.Id = "") ∧
    (∀ e, env.DeleteKey w1.kpAPI (crnSegment w.d.Id (crnLength w.d.Id - 1)) w.d.force_delete
        = .error e →
      (resourceIBMKmsKeyDelete env w).1 = .err (.plain ("Error while deleting: " ++ e.Error)) ∧
        (resourceIBMKmsKeyDelete env w).2.d.Id = w.d.Id) := by
  have h3 := segment_some w.d.Id 3 (by omega)
  have hi := segment_some w.d.Id (crnLength w.d.Id - 3) (by omega)
  have hkid := segment_some w.d.Id (crnLength w.d.Id - 1) (by omega)
  have hd : w1.d = w.d := by
    have := resolve_d env (stringsSplit w.d.Id ':') (crnSegment w.d.Id 3)
      (crnSegment w.d.Id (crnLength w.d.Id - 3))
      (w.withInstanceID (crnSegment w.d.Id (crnLength w.d.Id - 3)))
    rw [hres] at this
    exact this
  rw [delete_of_resolve_ok env w w1 _ _ _ ty hk hh h3 hi hkid hres, hd]
  refine ⟨?_, ?_, ?_⟩
  · split <;> rfl
  · intro key hdel
    rw [hdel]
    exact ⟨rfl, rfl⟩
  · intro e hdel
    rw [hdel]
    exact ⟨rfl, congrArg ResourceData.Id hd⟩

/-- Witness of C7: Delete on the sample Key Protect key calls `DeleteKey` for `key-1`
with force flag `false` and clears the identifier. -/
theorem delete_forwards_force_and_clears_id_witness :
    (resourceIBMKmsKeyDelete sampleEnv sampleKmsWorld).2.calls
        = [.DeleteKey
            { URL := none,
              Config := { BaseURL := "private.us-south.kms.cloud.ibm.com",
                          InstanceID := "inst-1" } }
            "key-1" false] ∧
      (resourceIBMKmsKeyDelete sampleEnv sampleKmsWorld).1 = .ok () ∧
      (resourceIBMKmsKeyDelete sampleEnv sampleKmsWorld).2.d.Id = "" :=
  have h := delete_forwards_force_and_clears_id sampleEnv sampleKmsWorld
    { kpAPI := { URL := none,
                 Config := { BaseURL := "private.us-south.kms.cloud.ibm.com",
                             InstanceID := "inst-1" } }
      d := sampleKmsWorld.d
      calls := [] }
    "kms" rfl rfl (by decide) (by decide)
  ⟨h.1, h.2.1 _ rfl⟩

/-- Counterexample to C8 as stated: Update on the sample Key Protect key issues a GetKey
fetch against the key service, and writes the field `key_id` besides `force_delete`. -/
theorem update_no_remote_call_counterexample :
    (resourceIBMKmsKeyUpdate sampleEnv sampleKmsWorld).2.calls.filter Call.isFetch
        = [.GetKey
            { URL := none,
              Config := { BaseURL := "private.us-south.kms.cloud.ibm.com",
                          InstanceID := "inst-1" } }
            "key-1"] ∧
      sampleKmsWorld.calls = [] ∧
      sampleKmsWorld.d.key_id = "" ∧
      (resourceIBMKmsKeyUpdate sampleEnv sampleKmsWorld).2.d.key_id = "key-1" := by
  decide

/-- C8 (amended): Update does what Read does and nothing else; it issues no create and no
delete call against the key service (its calls are those of Read: the endpoint lookup
and the GetKey fetch), and it leaves the local identifier and the value of
`force_delete` unchanged. -/
theorem update_runs_read_only (env : Env) (w : World) :
    resourceIBMKmsKeyUpdate env w = resourceIBMKmsKeyRead env w ∧
      (resourceIBMKmsKeyUpdate env w).2.d.Id = w.d.Id ∧
      (resourceIBMKmsKeyUpdate env w).2.d.force_delete = w.d.force_delete ∧
      ∃ cs, (resourceIBMKmsKeyUpdate env w).2.calls = w.calls ++ cs ∧
        ∀ c ∈ cs, c.isCreate = false ∧ c.isDelete = false := by
  rw [update_eq_read]
  exact ⟨rfl, read_id env w, read_force_delete env w, read_calls env w⟩

/-! ## HPCS host selection and CRN re-derivation (C9, C10) -/

/-- Counterexample to C9 as stated: the field `endpoint_type` of the sample HPCS record
is `private`, but segment 3 of its identifier is `public`, and Read sets the client
URL to the parse of the public host's URL, not of the private host's. -/
theorem hpcs_host_by_field_counterexample :
    sampleHpcsWorld.d.endpoint_type = "private" ∧
      crnSegment sampleHpcsWorld.d.Id 4 = "hs-crypto" ∧
      sampleEnv.GetAPIEndpoint "inst-1"
        = .ok ⟨"api.public.hpcs.example", "api.private.hpcs.example"⟩ ∧
      sampleEnv.urlParse ("https://" ++ "api.private.hpcs.example" ++ "/api/v2/keys")
        = .ok ⟨"https://api.private.hpcs.example/api/v2/keys"⟩ ∧
      (resourceIBMKmsKeyRead sampleEnv sampleHpcsWorld).2.kpAPI.URL
        = some ⟨"https://api.public.hpcs.example/api/v2/keys"⟩ ∧
      (resourceIBMKmsKeyRead sampleEnv sampleHpcsWorld).2.kpAPI.URL
        ≠ some ⟨"https://api.private.hpcs.example/api/v2/keys"⟩ :=
  ⟨by decide, by decide, rfl, rfl, by decide, by decide⟩

/-- C9 (amended): on the HPCS branch the host is selected by the field `endpoint_type` in
Create and by segment 3 of the identifier in Read, Delete and Exists: the URL built
is `https://<public host>/api/v2/keys` when the selector is `public` and
`https://<private host>/api/v2/keys` for every other value (in particular `private`);
when `url.Parse` accepts it the client URL is the parsed URL (in Create: on the
client the creation call is issued on), and when `url.Parse` rejects it the entry
point fails with the URL-parse error. -/
theorem hpcs_host_selection (env : Env) (w : World)
    (hk : env.keyManagementAPI = none) (hh : env.HpcsEndpointAPI = none) :
    (5 ≤ crnLength w.d.Id → crnSegment w.d.Id 4 = "hs-crypto" →
      ∀ resp, env.GetAPIEndpoint (crnSegment w.d.Id (crnLength w.d.Id - 3)) = .ok resp →
        (∀ u, env.urlParse (hpcsEndpointURL (crnSegment w.d.Id 3) resp) = .ok u →
          (resourceIBMKmsKeyRead env w).2.kpAPI.URL = some u ∧
            (resourceIBMKmsKeyDelete env w).2.kpAPI.URL = some u ∧
            (resourceIBMKmsKeyExists env w).2.kpAPI.URL = some u) ∧
        (∀ e, env.urlParse (hpcsEndpointURL (crnSegment w.d.Id 3) resp) = .error e →
          (resourceIBMKmsKeyRead env w).1 = .err urlParseError ∧
            (resourceIBMKmsKeyDelete env w).1 = .err urlParseError ∧
            (resourceIBMKmsKeyExists env w).1 = .err urlParseError)) ∧
    (env.ResourceControllerAPIV2 = none →
      ∀ instanceCRN resp, env.GetInstance w.d.instance_id = .ok instanceCRN →
        5 ≤ crnLength instanceCRN → crnSegment instanceCRN 4 = "hs-crypto" →
        env.GetAPIEndpoint w.d.instance_id = .ok resp →
        (∀ u, env.urlParse (hpcsEndpointURL w.d.endpoint_type resp) = .ok u →
          ∃ c k, c.client? = some k ∧ k.URL = some u ∧
            (resourceIBMKmsKeyCreate env w).2.calls.filter Call.isCreate
              = w.calls.filter Call.isCreate ++ [c]) ∧
        (∀ e, env.urlParse (hpcsEndpointURL w.d.endpoint_type resp) = .error e →
          (resourceIBMKmsKeyCreate env w).1 = .err urlParseError)) ∧
    (∀ (et : String) (resp : EndpointResp),
      (et = "public" → hpcsEndpointURL et resp = "https://" ++ resp.«Public» ++ "/api/v2/keys") ∧
      (et ≠ "public" →
        hpcsEndpointURL et resp = "https://" ++ resp.«Private» ++ "/api/v2/keys")) := by
  refine ⟨?_, ?_, ?_⟩
  · intro hlen hs resp hl
    have h4 := segment_some w.d.Id 4 (by omega)
    rw [hs] at h4
    have hR := around_hpcs _ _ _ _ _ _ _ (read_around env w hk hh hlen) h4
    have hD := around_hpcs _ _ _ _ _ _ _ (delete_around env w hk hh hlen) h4
    have hE := around_hpcs _ _ _ _ _ _ _ (exists_around env w hk hh hlen) h4
    refine ⟨fun u hu => ?_, fun e hu => ?_⟩
    · exact ⟨hR.1.2 resp u hl hu, hD.1.2 resp u hl hu, hE.1.2 resp u hl hu⟩
    · exact ⟨hR.2.2 resp e hl hu, hD.2.2 resp e hl hu, hE.2.2 resp e hl hu⟩
  · intro hr instanceCRN resp hinst hlen hs hl
    have h4 := segment_some instanceCRN 4 (by omega)
    rw [hs] at h4
    have hres := resolve_hs env (stringsSplit instanceCRN ':') w.d.endpoint_type w.d.instance_id
      (w.withCall (.GetInstance w.d.instance_id)) h4
    rw [hl] at hres
    refine ⟨fun u hu => ?_, fun e hu => ?_⟩
    · simp only [hu] at hres
      obtain ⟨hcalls, _, _⟩ := create_trace env w _ instanceCRN _ hk hh hr hinst hres
      exact ⟨_, _, creationCall_client _ _, rfl, hcalls⟩
    · simp only [hu] at hres
      rw [create_of_resolve_err env w _ instanceCRN _ hk hh hr hinst hres]
  · intro et resp
    constructor
    · intro h
      simp [hpcsEndpointURL, h]
    · intro h
      simp [hpcsEndpointURL, h]

/-- Witness of C9 (amended): on the sample HPCS key, whose segment 3 is `public`, Read
sets the client URL to the parse of the public host's URL. -/
theorem hpcs_host_selection_witness :
    crnSegment sampleHpcsWorld.d.Id 3 = "public" ∧
      (resourceIBMKmsKeyRead sampleEnv sampleHpcsWorld).2.kpAPI.URL
        = some ⟨"https://api.public.hpcs.example/api/v2/keys"⟩ :=
  ⟨by decide,
    (((hpcs_host_selection sampleEnv sampleHpcsWorld rfl rfl).1 (by decide) (by decide)
      ⟨"api.public.hpcs.example", "api.private.hpcs.example"⟩ rfl).1
      ⟨"https://api.public.hpcs.example/api/v2/keys"⟩ rfl).1⟩

end KmsKey
